import Mathlib

/-!
# FocusMode.jsx: the Pomodoro timer of smart-study-llm

A shallow embedding of `src/frontend/src/components/FocusMode.jsx`.

The component keeps eight `useState` variables.  Every handler is a batch of
`setX` calls followed by one committed render; after the commit React runs the
effect of `useEffect(..., [isActive])` when and only when `isActive` differs from
the previously committed value.

The callback given to `setInterval` is created inside that effect.  It calls the
`handleTimerComplete` of the render in which the effect ran, so the `isBreak`,
`focusTime` and `breakTime` read by `handleTimerComplete` are the values of that
render (JavaScript closures over `const` bindings), not the current ones.  The
embedding keeps these captured values in the `interval` field.

Updater functions (`setSeconds(prev => ...)`) run when React processes the update
queue; the `setX` calls made while they run are applied after their return value,
in call order, before the commit.  Each updater runs once per update, as in a
production build.  `alert` blocks the page and returns; the embedding records the
message in the `alerts` trace.
-/

namespace FocusMode

/-- The two `alert(...)` messages of `handleTimerComplete` (lines 54 and 63). -/
inductive Alert where
  | focusCompleted
  | breakOver
deriving DecidableEq, Repr

/-- The bindings of the render in which the effect armed the interval, as read by the
`handleTimerComplete` that the interval callback calls. -/
structure Closure where
  isBreak : Bool
  focusTime : Int
  breakTime : Int
deriving DecidableEq, Repr

/-- The `useState` variables of `FocusMode` (lines 9-18), the armed interval of
`intervalRef` (`none` when cleared) and the trace of `alert` calls made so far. -/
structure State where
  minutes : Int
  seconds : Int
  isActive : Bool
  isBreak : Bool
  sessionsCompleted : Nat
  focusTime : Int
  breakTime : Int
  showSettings : Bool
  interval : Option Closure
  alerts : List Alert
deriving DecidableEq, Repr

/-- The `useState` initialisers (lines 9-18); on mount `isActive` is false, so the effect
only calls `clearInterval(null)`. -/
def initialState : State :=
  { minutes := 25, seconds := 0, isActive := false, isBreak := false,
    sessionsCompleted := 0, focusTime := 25, breakTime := 5, showSettings := false,
    interval := none, alerts := [] }

/-- Remaining time in seconds, `minutes * 60 + seconds` (line 138). -/
def State.remaining (s : State) : Int := s.minutes * 60 + s.seconds

/-- The commit after a batch of updates: the effect of lines 23-46 runs only when
`isActive` changed.  Its cleanup clears the old interval; its body arms a new one, whose
callback closes over the committed render, when `isActive` is true. -/
def commit (wasActive : Bool) (s : State) : State :=
  if s.isActive = wasActive then s
  else if s.isActive then
    { s with interval := some { isBreak := s.isBreak, focusTime := s.focusTime,
                                breakTime := s.breakTime } }
  else { s with interval := none }

/-- The updates queued by `handleTimerComplete` (lines 48-70), with the bindings `c` of
the render that created it. -/
def handleTimerComplete (c : Closure) (s : State) : State :=
  let s := { s with isActive := false }
  if !c.isBreak then
    let s := { s with sessionsCompleted := s.sessionsCompleted + 1 }
    let s := { s with alerts := s.alerts ++ [Alert.focusCompleted] }
    let s := { s with isBreak := true }
    let s := { s with minutes := c.breakTime }
    let s := { s with seconds := 0 }
    { s with isActive := true }
  else
    let s := { s with alerts := s.alerts ++ [Alert.breakOver] }
    let s := { s with isBreak := false }
    let s := { s with minutes := c.focusTime }
    { s with seconds := 0 }

/-- The `setInterval` callback (lines 25-40).  At `0:00` the two updaters return
`prevMinutes` and `59`, and the updates queued by `handleTimerComplete` are applied on
top of them. -/
def intervalCallback (c : Closure) (s : State) : State :=
  if s.seconds = 0 then
    if s.minutes = 0 then
      handleTimerComplete c { s with minutes := s.minutes, seconds := 59 }
    else
      { s with minutes := s.minutes - 1, seconds := 59 }
  else
    { s with seconds := s.seconds - 1 }

/-- One tick: the armed interval fires once and React commits the result.  With no
interval armed nothing fires. -/
def tick (s : State) : State :=
  match s.interval with
  | none => s
  | some c => commit s.isActive (intervalCallback c s)

/-- Repeated ticks: `ticks n s` is the state after `n` ticks. -/
def ticks : Nat → State → State
  | 0, s => s
  | n + 1, s => ticks n (tick s)

/-- Lines 72-74. -/
def startTimer (s : State) : State :=
  commit s.isActive { s with isActive := true }

/-- Lines 76-78. -/
def pauseTimer (s : State) : State :=
  commit s.isActive { s with isActive := false }

/-- Lines 81-86. -/
def resetTimer (s : State) : State :=
  commit s.isActive
    { s with isActive := false, isBreak := false, minutes := s.focusTime, seconds := 0 }

/-- Lines 88-98. -/
def skipSession (s : State) : State :=
  let s1 : State :=
    if !s.isBreak then { s with isBreak := true, minutes := s.breakTime }
    else { s with isBreak := false, minutes := s.focusTime }
  commit s.isActive { s1 with seconds := 0, isActive := false }

/-- Lines 101-107. -/
def applySettings (s : State) : State :=
  commit s.isActive
    { s with minutes := s.focusTime, seconds := 0, isActive := false, isBreak := false,
             showSettings := false }

/-! ## The settings panel (lines 178-283) -/

/-- ECMAScript `StrWhiteSpaceChar`: the white space and line terminator code points that
`parseInt` skips at the start of its argument. -/
def isStrWhiteSpaceChar (c : Char) : Bool :=
  let n := c.toNat
  n = 0x09 || n = 0x0A || n = 0x0B || n = 0x0C || n = 0x0D || n = 0x20 || n = 0xA0 ||
  n = 0x1680 || (0x2000 ≤ n && n ≤ 0x200A) || n = 0x2028 || n = 0x2029 || n = 0x202F ||
  n = 0x205F || n = 0x3000 || n = 0xFEFF

/-- The value of `c` as a digit in radix `r`, if it is one. -/
def radixDigit (r : Nat) (c : Char) : Option Nat :=
  let n := c.toNat
  let d : Option Nat :=
    if 48 ≤ n ∧ n ≤ 57 then some (n - 48)
    else if 97 ≤ n ∧ n ≤ 122 then some (n - 97 + 10)
    else if 65 ≤ n ∧ n ≤ 90 then some (n - 65 + 10)
    else none
  d.filter (fun k => k < r)

/-- The JavaScript builtin `parseInt(string)` called without a radix (ECMAScript
`parseInt`, steps 1-16): skip leading white space, read a sign, read a `0x`/`0X` marker
(radix 16, otherwise 10), take the longest run of digits; `none` is `NaN`.  The result is
the exact integer: the rounding of a huge value to a double is not modelled, both clamp
alike. -/
def parseInt (str : String) : Option Int :=
  let s0 := str.toList.dropWhile isStrWhiteSpaceChar
  let (sign, s1) : Int × List Char :=
    match s0 with
    | '-' :: rest => (-1, rest)
    | '+' :: rest => (1, rest)
    | _ => (1, s0)
  let (r, s2) : Nat × List Char :=
    match s1 with
    | '0' :: 'x' :: rest => (16, rest)
    | '0' :: 'X' :: rest => (16, rest)
    | _ => (10, s1)
  let z := s2.takeWhile (fun c => (radixDigit r c).isSome)
  if z.isEmpty then none
  else some (sign * ((z.foldl (fun acc c => acc * r + (radixDigit r c).getD 0) 0 : Nat) : Int))

/-- JavaScript `x || d` on a number: `NaN`, `0` and `-0` are falsy. -/
def jsOr (x : Option Int) (d : Int) : Int :=
  match x with
  | none => d
  | some n => if n = 0 then d else n

/-- Line 180: the Customize Timer / Hide Settings button. -/
def toggleSettings (s : State) : State := { s with showSettings := !s.showSettings }

/-- Line 195: focus `-` button. -/
def focusMinus (s : State) : State := { s with focusTime := max 1 (s.focusTime - 5) }

/-- Line 202: `onChange` of the focus-time input with `e.target.value = v`. -/
def focusInput (v : String) (s : State) : State :=
  { s with focusTime := max 1 (min 60 (jsOr (parseInt v) 1)) }

/-- Line 208: focus `+` button. -/
def focusPlus (s : State) : State := { s with focusTime := min 60 (s.focusTime + 5) }

/-- Line 221: break `-` button. -/
def breakMinus (s : State) : State := { s with breakTime := max 1 (s.breakTime - 1) }

/-- Line 228: `onChange` of the break-time input with `e.target.value = v`. -/
def breakInput (v : String) (s : State) : State :=
  { s with breakTime := max 1 (min 30 (jsOr (parseInt v) 1)) }

/-- Line 234: break `+` button. -/
def breakPlus (s : State) : State := { s with breakTime := min 30 (s.breakTime + 1) }

/-- Lines 248-251: preset Classic (25/5). -/
def presetClassic (s : State) : State := { s with focusTime := 25, breakTime := 5 }

/-- Lines 257-260: preset Long (50/10). -/
def presetLong (s : State) : State := { s with focusTime := 50, breakTime := 10 }

/-- Lines 266-269: preset Short (15/3). -/
def presetShort (s : State) : State := { s with focusTime := 15, breakTime := 3 }

/-- Line 280: the Cancel button. -/
def cancelSettings (s : State) : State := { s with showSettings := false }

/-- An edit of the durations in the settings panel. -/
inductive Edit where
  | focusMinus
  | focusInput (v : String)
  | focusPlus
  | breakMinus
  | breakInput (v : String)
  | breakPlus
  | presetClassic
  | presetLong
  | presetShort
deriving DecidableEq, Repr

/-- The handler of an edit.  None of them sets `isActive`, so the effect does not run. -/
def Edit.apply : Edit → State → State
  | .focusMinus => FocusMode.focusMinus
  | .focusInput v => FocusMode.focusInput v
  | .focusPlus => FocusMode.focusPlus
  | .breakMinus => FocusMode.breakMinus
  | .breakInput v => FocusMode.breakInput v
  | .breakPlus => FocusMode.breakPlus
  | .presetClassic => FocusMode.presetClassic
  | .presetLong => FocusMode.presetLong
  | .presetShort => FocusMode.presetShort

/-- What can happen to the mounted component: a click on a control or a tick. -/
inductive Op where
  | start
  | pause
  | reset
  | skip
  | tick
  | toggleSettings
  | edit (e : Edit)
  | applySettings
  | cancel
deriving DecidableEq, Repr

/-- One operation.  The settings panel (edits, Apply, Cancel) is rendered only while
`showSettings` is true (line 186); without it those clicks cannot happen. -/
def step (op : Op) (s : State) : State :=
  match op with
  | .start => startTimer s
  | .pause => pauseTimer s
  | .reset => resetTimer s
  | .skip => skipSession s
  | .tick => tick s
  | .toggleSettings => toggleSettings s
  | .edit e => if s.showSettings then e.apply s else s
  | .applySettings => if s.showSettings then applySettings s else s
  | .cancel => if s.showSettings then cancelSettings s else s

/-- The state after a sequence of operations. -/
def run (ops : List Op) (s : State) : State := ops.foldl (fun t op => step op t) s

/-- States reachable from the initial state by any sequence of operations. -/
inductive Reachable : State → Prop where
  | init : Reachable initialState
  | step (op : Op) {s : State} : Reachable s → Reachable (step op s)

/-! ## Reachable states and their invariants -/

/-- Whether an operation is an edit of the durations. -/
def Op.isEdit : Op → Bool
  | .edit _ => true
  | _ => false

/-- States reachable when the durations are only changed the way the specification's
`applyConfig` changes them: any edits in the settings panel are followed at once by
Apply & Reset Timer, with no other operation and no tick in between. -/
inductive ReachableApplied : State → Prop where
  | init : ReachableApplied initialState
  | op (o : Op) {s : State} : o.isEdit = false → ReachableApplied s → ReachableApplied (step o s)
  | config (es : List Edit) {s : State} :
      ReachableApplied s → ReachableApplied (run (es.map Op.edit ++ [Op.applySettings]) s)

/-- The configured duration, in minutes, of the current kind of session (line 138). -/
def State.duration (s : State) : Int := if s.isBreak then s.breakTime else s.focusTime

/-- The remaining time lies between 0 and the full duration of the current kind of
session. -/
def RemainingInRange (s : State) : Prop :=
  0 ≤ s.remaining ∧ s.remaining ≤ s.duration * 60

/-- What holds in every reachable state: the durations are within their ranges, also the
ones captured by an armed interval; the clock fields are well formed; an interval is
armed exactly when the timer is active; an interval armed during a break is still in that
break; the remaining time is below the largest duration that can be configured. -/
def WellFormed (s : State) : Prop :=
  (1 ≤ s.focusTime ∧ s.focusTime ≤ 60) ∧ (1 ≤ s.breakTime ∧ s.breakTime ≤ 30) ∧
  (0 ≤ s.seconds ∧ s.seconds ≤ 59) ∧ 0 ≤ s.minutes ∧
  s.interval.isSome = s.isActive ∧
  (∀ c, s.interval = some c →
    (1 ≤ c.focusTime ∧ c.focusTime ≤ 60) ∧ (1 ≤ c.breakTime ∧ c.breakTime ≤ 30) ∧
    (c.isBreak = true → s.isBreak = true)) ∧
  s.remaining ≤ (if s.isBreak then 30 else 60) * 60

/-- The armed interval holds the current durations and the remaining time is at most the
current duration. -/
def Synced (s : State) : Prop :=
  (∀ c, s.interval = some c → c.focusTime = s.focusTime ∧ c.breakTime = s.breakTime) ∧
  s.remaining ≤ s.duration * 60

/-- The fraction behind the width of the progress bar (line 138):
`(total - remaining) / total` with `total = (isBreak ? breakTime : focusTime) * 60`, before
the `* 100` that makes it a percentage.  The quotient is the exact rational (the
JavaScript double is its rounding); `none` stands for the `NaN` or infinity that a zero
`total` gives.  The expression has no clamp and no test for a zero `total`. -/
def progressFraction (s : State) : Option ℚ :=
  let total : Int := (if s.isBreak then s.breakTime else s.focusTime) * 60
  if total = 0 then none
  else some (((total - (s.minutes * 60 + s.seconds) : Int) : ℚ) / ((total : Int) : ℚ))

/-- The `width` of the progress bar in percent (line 138). -/
def progressWidth (s : State) : Option ℚ := (progressFraction s).map (fun q => q * 100)

/-! ## The interval timers behind `intervalRef` (lines 20-46) -/

/-- The browser's interval timers as the component sees them: `intervalRef.current`, the
ids of the intervals that were set and not yet cleared, and the id that the next
`setInterval` returns. -/
structure Timers where
  ref : Option Nat
  live : List Nat
  next : Nat
deriving DecidableEq, Repr

/-- The call `clearInterval(id)`: on `null` or an id that is not live nothing happens. -/
def clearInterval (id : Option Nat) (t : Timers) : Timers :=
  match id with
  | none => t
  | some i => { t with live := t.live.filter (fun j => decide (j ≠ i)) }

/-- The body of the effect (lines 24-43): `intervalRef.current = setInterval(...)` when
`isActive`, `clearInterval(intervalRef.current)` otherwise. -/
def effectBody (isActive : Bool) (t : Timers) : Timers :=
  if isActive then { ref := some t.next, live := t.next :: t.live, next := t.next + 1 }
  else clearInterval t.ref t

/-- The cleanup of the effect (line 45). -/
def effectCleanup (t : Timers) : Timers := clearInterval t.ref t

/-- The timers after mounting: `useRef(null)` and the first run of the effect with
`isActive` false. -/
def mountTimers : Timers := effectBody false { ref := none, live := [], next := 1 }

/-- The timers over a commit: when `isActive` changed the cleanup of the previous effect
runs and then the effect body; otherwise nothing runs. -/
def commitTimers (wasActive isActive : Bool) (t : Timers) : Timers :=
  if isActive = wasActive then t else effectBody isActive (effectCleanup t)

/-- The timers hold exactly one live interval, the one in `intervalRef`, when the
component is active, and none otherwise. -/
def TimersFor (isActive : Bool) (t : Timers) : Prop :=
  if isActive then ∃ i, t.ref = some i ∧ t.live = [i] else t.live = []

/-- The component together with its timers, reachable from the mount by any sequence of
operations. -/
inductive ReachableWithTimers : State → Timers → Prop where
  | init : ReachableWithTimers initialState mountTimers
  | step (op : Op) {s : State} {t : Timers} :
      ReachableWithTimers s t →
      ReachableWithTimers (step op s) (commitTimers s.isActive (step op s).isActive t)

/-! ## The display (lines 109-112) -/

/-- JavaScript `n.toString()` on an integer: its decimal digits, with a minus sign when
negative. -/
def jsToString (n : Int) : String := toString n

/-- JavaScript `str.padStart(2, '0')`. -/
def padStart2 (str : String) : String :=
  String.mk (List.replicate (2 - str.length) '0') ++ str

/-- Lines 110-112. -/
def formatTime (min sec : Int) : String :=
  padStart2 (jsToString min) ++ ":" ++ padStart2 (jsToString sec)

end FocusMode

/-! # StudyPlanner.jsx: the subjects sent to the backend -/

namespace StudyPlanner

/-- JavaScript `String.prototype.trim` on the characters of a string: white space and
line terminators are removed at both ends. -/
def trimChars (cs : List Char) : List Char :=
  (cs.dropWhile FocusMode.isStrWhiteSpaceChar).rdropWhile FocusMode.isStrWhiteSpaceChar

/-- JavaScript `str.trim()`. -/
def trim (str : String) : String := String.mk (trimChars str.toList)

/-- JavaScript `str.split(",")` on the characters of a string: the pieces between the
commas, empty pieces included; the empty string gives one empty piece. -/
def splitCommaChars : List Char → List (List Char)
  | [] => [[]]
  | c :: cs =>
    if c = ',' then [] :: splitCommaChars cs
    else
      match splitCommaChars cs with
      | [] => [[c]]
      | p :: ps => (c :: p) :: ps

/-- JavaScript `str.split(",")`. -/
def splitComma (str : String) : List String := (splitCommaChars str.toList).map String.mk

/-- Lines 28-31: `subjects.split(",").map((s) => s.trim()).filter(Boolean)`; the empty
string is the only falsy string. -/
def subjectArray (subjects : String) : List String :=
  ((splitComma subjects).map trim).filter (fun x => decide (x ≠ ""))

/-- What a click on Generate does before any answer arrives: the error shown and the
body of the POST request, if one is sent. -/
structure Outcome where
  error : String
  posted : Option (List String)
deriving DecidableEq, Repr

/-- Lines 13-44 of `generatePlan`: the validation and the request. -/
def generatePlan (subjects : String) : Outcome :=
  if trim subjects = "" then
    { error := "Please enter at least one subject.", posted := none }
  else
    { error := "", posted := some (subjectArray subjects) }

end StudyPlanner

/-! # Dashboard.jsx and App.jsx: the feature tiles and the routes -/

namespace Dashboard

/-- An entry of `allFeatures`. -/
structure Feature where
  id : String
  title : String
  subtitle : String
  icon : String
  gradient : String
  path : String
deriving DecidableEq, Repr

/-- Lines 39-105, under the comment `ALL 8 WORKING FEATURES`. -/
def allFeatures : List Feature :=
  [ { id := "planner", title := "AI Study Planner", subtitle := "Smart schedules",
      icon := "📚", gradient := "purple", path := "/study-planner" },
    { id := "chat", title := "AI Tutor", subtitle := "Instant help",
      icon := "💡", gradient := "blue", path := "/chat" },
    { id := "focus", title := "Focus Mode", subtitle := "Deep work",
      icon := "🎯", gradient := "orange", path := "/focus-mode" },
    { id := "progress", title := "Progress Tracker", subtitle := "Track growth",
      icon := "📈", gradient := "green", path := "/progress-tracker" },
    { id := "buddy", title := "Study Buddy", subtitle := "Find partners",
      icon := "👥", gradient := "pink", path := "/study-buddy" },
    { id := "voice", title := "Voice Notes", subtitle := "Record & summarize",
      icon := "🎤", gradient := "teal", path := "/voice-notes" },
    { id := "ambient", title := "Study Rooms", subtitle := "Virtual spaces",
      icon := "🌙", gradient := "indigo", path := "/study-rooms" },
    { id := "location", title := "Location Tracker", subtitle := "Best study spots",
      icon := "📍", gradient := "red", path := "/location-tracker" } ]

end Dashboard

namespace App

/-- The components that `App.jsx` imports and mounts. -/
inductive Page where
  | Hero
  | Login
  | Signup
  | Dashboard
  | StudyPlanner
  | ChatAssistant
  | FocusMode
  | ProgressTracker
  | StudyBuddy
  | VoiceNotes
deriving DecidableEq, Repr

/-- The `element` of a route: a page, or `<Navigate to=... />`. -/
inductive Element where
  | page (p : Page)
  | navigate (target : String)
deriving DecidableEq, Repr

/-- The route table (lines 48-101) for the current `user`; `user ? a : b` takes `a` when
a user object is present and `b` when it is `null`. -/
def routes {User : Type} (user : Option User) : List (String × Element) :=
  [ ("/", .page .Hero),
    ("/login", if user.isSome then .navigate "/dashboard" else .page .Login),
    ("/signup", if user.isSome then .navigate "/dashboard" else .page .Signup),
    ("/dashboard", if user.isSome then .page .Dashboard else .navigate "/login"),
    ("/study-planner", if user.isSome then .page .StudyPlanner else .navigate "/login"),
    ("/chat", if user.isSome then .page .ChatAssistant else .navigate "/login"),
    ("/focus-mode", if user.isSome then .page .FocusMode else .navigate "/login"),
    ("/progress-tracker", if user.isSome then .page .ProgressTracker else .navigate "/login"),
    ("/study-buddy", if user.isSome then .page .StudyBuddy else .navigate "/login"),
    ("/voice-notes", if user.isSome then .page .VoiceNotes else .navigate "/login") ]

/-- The paths of the route table. -/
def routePaths : List String := (routes (none : Option Unit)).map Prod.fst

/-- What `App` returns. -/
inductive View where
  | checking
  | element (e : Element)
  | noMatch
deriving DecidableEq, Repr

/-- Lines 17-104: the output of `App` for the state `loading`, `user` and the location
`pathname`.  `Routes` renders the element of the route whose path is the location (the
paths are matched as written) and nothing when there is none. -/
def render {User : Type} (loading : Bool) (user : Option User) (pathname : String) : View :=
  if loading then .checking
  else
    match (routes user).lookup pathname with
    | some e => .element e
    | none => .noMatch

end App

namespace FocusMode

/-! ## Ticks -/

/-- A tick with time left takes one second off the clock and changes nothing else. -/
theorem tick_ordinary (s : State) (c : Closure) (hi : s.interval = some c)
    (h0 : 0 ≤ s.seconds) (h59 : s.seconds ≤ 59) (hpos : 0 < s.remaining) :
    tick s = { s with minutes := (s.remaining - 1) / 60, seconds := (s.remaining - 1) % 60 } := by
  unfold State.remaining at *
  simp only [tick, hi, intervalCallback]
  by_cases hs : s.seconds = 0
  · have hm : s.minutes ≠ 0 := by omega
    simp only [hs, hm, if_true, if_false, commit]
    simp
    constructor <;> omega
  · simp only [hs, if_false, commit]
    simp
    constructor <;> omega

/-- Ticks compose. -/
theorem ticks_add (a b : Nat) (s : State) : ticks (a + b) s = ticks b (ticks a s) := by
  induction a generalizing s with
  | zero => simp [ticks]
  | succ n ih => rw [Nat.succ_add]; simp only [ticks]; exact ih (tick s)

/-- While time is left, `k` ticks take `k` seconds off the clock and change nothing else. -/
theorem ticks_countdown (k : Nat) (s : State) (c : Closure) (hi : s.interval = some c)
    (h0 : 0 ≤ s.seconds) (h59 : s.seconds ≤ 59) (hk : (k : Int) ≤ s.remaining) :
    ticks k s =
      { s with minutes := (s.remaining - k) / 60, seconds := (s.remaining - k) % 60 } := by
  induction k generalizing s with
  | zero =>
    cases s
    simp only [State.remaining, ticks] at *
    simp
    constructor <;> omega
  | succ n ih =>
    have hpos : 0 < s.remaining := by omega
    simp only [ticks]
    rw [tick_ordinary s c hi h0 h59 hpos]
    have h2 : 0 ≤ (s.remaining - 1) % 60 := by omega
    have h3 : (s.remaining - 1) % 60 ≤ 59 := by omega
    have h4 : (n : Int) ≤ (s.remaining - 1) / 60 * 60 + (s.remaining - 1) % 60 := by
      push_cast at hk
      omega
    rw [ih { s with minutes := (s.remaining - 1) / 60, seconds := (s.remaining - 1) % 60 }
      hi h2 h3 h4]
    simp only [State.remaining, State.mk.injEq, and_true, true_and]
    push_cast
    constructor <;> omega

/-- At `0:00` a tick from an interval armed during a focus session takes the focus branch
of `handleTimerComplete`, whatever the current `isBreak` and `breakTime` are. -/
theorem tick_zero_focus_closure (s : State) (c : Closure) (hi : s.interval = some c)
    (ha : s.isActive = true) (hc : c.isBreak = false) (hm : s.minutes = 0)
    (hs : s.seconds = 0) :
    tick s = { s with sessionsCompleted := s.sessionsCompleted + 1,
                      alerts := s.alerts ++ [Alert.focusCompleted],
                      isBreak := true, minutes := c.breakTime, seconds := 0 } := by
  cases s
  simp only at hi ha hm hs
  subst hi ha hm hs
  simp [tick, intervalCallback, handleTimerComplete, commit, hc]

/-- At `0:00` a tick from an interval armed during a break takes the break branch and
disarms the interval. -/
theorem tick_zero_break_closure (s : State) (c : Closure) (hi : s.interval = some c)
    (ha : s.isActive = true) (hc : c.isBreak = true) (hm : s.minutes = 0)
    (hs : s.seconds = 0) :
    tick s = { s with alerts := s.alerts ++ [Alert.breakOver], isActive := false,
                      isBreak := false, minutes := c.focusTime, seconds := 0,
                      interval := none } := by
  cases s
  simp only at hi ha hm hs
  subst hi ha hm hs
  simp [tick, intervalCallback, handleTimerComplete, commit, hc]

/-- The state after Start on the freshly mounted component. -/
theorem startTimer_initialState :
    startTimer initialState =
      { initialState with isActive := true,
                          interval := some { isBreak := false, focusTime := 25, breakTime := 5 } } := by
  decide

/-- With the default 25/5 durations, 1500 ticks after Start the clock shows `0:00` and
the focus session is still on. -/
theorem ticks_1500_start :
    ticks 1500 (startTimer initialState) =
      { initialState with minutes := 0, isActive := true,
                          interval := some { isBreak := false, focusTime := 25, breakTime := 5 } } := by
  rw [startTimer_initialState,
    ticks_countdown 1500 _ { isBreak := false, focusTime := 25, breakTime := 5 } rfl
      (by decide) (by decide) (by decide)]
  decide

/-- With the default 25/5 durations, the 1501st tick after Start completes the focus
session. -/
theorem ticks_1501_start :
    ticks 1501 (startTimer initialState) =
      { initialState with minutes := 5, isActive := true, isBreak := true,
                          sessionsCompleted := 1, alerts := [Alert.focusCompleted],
                          interval := some { isBreak := false, focusTime := 25, breakTime := 5 } } := by
  rw [show 1501 = 1500 + 1 from rfl, ticks_add, ticks_1500_start]
  decide

/-- Examples of `parseInt`: digits, no digits, leading white space and sign with trailing
text, hexadecimal, a decimal point. -/
theorem parseInt_examples :
    parseInt "42" = some 42 ∧ parseInt "" = none ∧ parseInt "abc" = none ∧
    parseInt "  -7px" = some (-7) ∧ parseInt "0x1F" = some 31 ∧ parseInt "2.7" = some 2 ∧
    parseInt "-0" = some 0 := by
  decide

/-- The state after Start, opening the settings and pressing break `+` once: `breakTime`
is 6, the armed interval still holds 5. -/
theorem run_start_breakPlus :
    run [.start, .toggleSettings, .edit .breakPlus] initialState =
      { initialState with isActive := true, breakTime := 6, showSettings := true,
                          interval := some { isBreak := false, focusTime := 25, breakTime := 5 } } := by
  decide

/-! ## Invariants of the reachable states -/

/-- The freshly mounted component is well formed. -/
theorem wellFormed_initialState : WellFormed initialState := by
  simp [WellFormed, initialState, State.remaining]

/-- Edits keep the durations within their ranges and touch nothing else. -/
theorem wellFormed_edit (e : Edit) (s : State) (h : WellFormed s) : WellFormed (e.apply s) := by
  obtain ⟨m, sec, act, brk, n, f, b, sh, iv, al⟩ := s
  cases e <;>
    simp only [WellFormed, Edit.apply, focusMinus, focusInput, focusPlus, breakMinus, breakInput,
      breakPlus, presetClassic, presetLong, presetShort, State.remaining] at h ⊢ <;>
    refine ⟨?_, ?_, h.2.2.1, h.2.2.2.1, h.2.2.2.2.1, h.2.2.2.2.2.1, h.2.2.2.2.2.2⟩ <;>
    omega

/-- A tick, completing or not, keeps the state well formed. -/
theorem wellFormed_tick (s : State) (h : WellFormed s) : WellFormed (tick s) := by
  obtain ⟨m, sec, act, brk, n, f, b, sh, iv, al⟩ := s
  cases iv with
  | none => exact h
  | some c =>
    obtain ⟨cb, cf, cbt⟩ := c
    simp only [WellFormed, State.remaining, Option.isSome_some, Option.some.injEq, forall_eq'] at h
    obtain ⟨hf, hb, hs, hm, ha, ⟨hcf, hcb, hci⟩, hr⟩ := h
    subst ha
    simp only [tick, intervalCallback, handleTimerComplete, commit]
    by_cases h1 : sec = 0
    · by_cases h2 : m = 0
      · cases cb <;> cases brk <;> simp_all [WellFormed, State.remaining] <;> omega
      · cases brk <;> simp_all [WellFormed, State.remaining] <;> omega
    · cases brk <;> simp_all [WellFormed, State.remaining] <;> omega

/-- Every operation keeps the state well formed. -/
theorem wellFormed_step (op : Op) (s : State) (h : WellFormed s) : WellFormed (step op s) := by
  cases op with
  | tick => exact wellFormed_tick s h
  | edit e =>
    simp only [step]
    split
    · exact wellFormed_edit e s h
    · exact h
  | start =>
    obtain ⟨m, sec, act, brk, n, f, b, sh, iv, al⟩ := s
    cases act <;> cases iv <;> simp_all [WellFormed, step, startTimer, commit, State.remaining]
  | pause =>
    obtain ⟨m, sec, act, brk, n, f, b, sh, iv, al⟩ := s
    cases act <;> cases iv <;> simp_all [WellFormed, step, pauseTimer, commit, State.remaining]
  | reset =>
    obtain ⟨m, sec, act, brk, n, f, b, sh, iv, al⟩ := s
    cases act <;> cases iv <;>
      simp_all [WellFormed, step, resetTimer, commit, State.remaining] <;> omega
  | skip =>
    obtain ⟨m, sec, act, brk, n, f, b, sh, iv, al⟩ := s
    cases act <;> cases iv <;> cases brk <;>
      simp_all [WellFormed, step, skipSession, commit, State.remaining] <;> omega
  | toggleSettings => exact h
  | applySettings =>
    obtain ⟨m, sec, act, brk, n, f, b, sh, iv, al⟩ := s
    cases act <;> cases iv <;> cases sh <;>
      simp_all [WellFormed, step, applySettings, commit, State.remaining] <;> omega
  | cancel =>
    simp only [step]
    split
    · exact h
    · exact h

/-- Running two sequences of operations one after the other. -/
theorem run_append (xs ys : List Op) (s : State) : run (xs ++ ys) s = run ys (run xs s) := by
  simp [run, List.foldl_append]

/-- A sequence of operations keeps the state well formed. -/
theorem wellFormed_run (ops : List Op) (s : State) (h : WellFormed s) : WellFormed (run ops s) := by
  induction ops generalizing s with
  | nil => exact h
  | cons o os ih => exact ih (step o s) (wellFormed_step o s h)

/-- A sequence of operations leads from a reachable state to a reachable state. -/
theorem reachable_run (ops : List Op) (s : State) (h : Reachable s) : Reachable (run ops s) := by
  induction ops generalizing s with
  | nil => exact h
  | cons o os ih => exact ih (step o s) (Reachable.step o h)

/-- Every reachable state is well formed. -/
theorem reachable_wellFormed (s : State) (h : Reachable s) : WellFormed s := by
  induction h with
  | init => exact wellFormed_initialState
  | step op _ ih => exact wellFormed_step op _ ih

/-- States reachable with edits applied at once are reachable. -/
theorem reachableApplied_reachable (s : State) (h : ReachableApplied s) : Reachable s := by
  induction h with
  | init => exact Reachable.init
  | op o _ _ ih => exact Reachable.step o ih
  | config es _ ih => exact reachable_run _ _ ih

/-- With the settings panel hidden no edit can be made. -/
theorem run_edits_hidden (es : List Edit) (s : State) (h : s.showSettings = false) :
    run (es.map Op.edit) s = s := by
  induction es with
  | nil => rfl
  | cons e es ih => simpa [run, step, h] using ih

/-- Edits leave the settings panel as it is. -/
theorem run_edits_showSettings (es : List Edit) (s : State) :
    (run (es.map Op.edit) s).showSettings = s.showSettings := by
  induction es generalizing s with
  | nil => rfl
  | cons e es ih =>
    have h1 : (step (Op.edit e) s).showSettings = s.showSettings := by
      simp only [step]
      split
      · cases e <;> rfl
      · rfl
    simpa [run, h1] using ih (step (Op.edit e) s)

/-- Apply & Reset Timer disarms the interval and loads the current focus duration. -/
theorem synced_applySettings (s : State) (h : WellFormed s) : Synced (applySettings s) := by
  obtain ⟨m, sec, act, brk, n, f, b, sh, iv, al⟩ := s
  cases act <;> cases iv <;>
    simp_all [WellFormed, Synced, applySettings, commit, State.remaining, State.duration]

/-- Operations other than edits keep the armed interval and the clock in line with the
current durations. -/
theorem synced_step (o : Op) (s : State) (ho : o.isEdit = false) (hw : WellFormed s)
    (h : Synced s) : Synced (step o s) := by
  cases o with
  | edit e => simp [Op.isEdit] at ho
  | tick =>
    obtain ⟨m, sec, act, brk, n, f, b, sh, iv, al⟩ := s
    cases iv with
    | none => exact h
    | some c =>
      obtain ⟨cb, cf, cbt⟩ := c
      simp only [WellFormed, Synced, State.duration, State.remaining, Option.isSome_some,
        Option.some.injEq, forall_eq'] at hw h
      obtain ⟨hf, hb, hs, hm, ha, ⟨hcf, hcb, hci⟩, hr⟩ := hw
      obtain ⟨⟨e1, e2⟩, hd⟩ := h
      subst ha e1 e2
      simp only [step, tick, intervalCallback, handleTimerComplete, commit]
      by_cases h1 : sec = 0
      · by_cases h2 : m = 0
        · cases cb <;> cases brk <;>
            simp_all [Synced, State.remaining, State.duration]
        · cases brk <;> simp_all [Synced, State.remaining, State.duration] <;> omega
      · cases brk <;> simp_all [Synced, State.remaining, State.duration] <;> omega
  | start =>
    obtain ⟨m, sec, act, brk, n, f, b, sh, iv, al⟩ := s
    cases act <;> cases iv <;>
      simp_all [WellFormed, Synced, step, startTimer, commit, State.remaining, State.duration]
  | pause =>
    obtain ⟨m, sec, act, brk, n, f, b, sh, iv, al⟩ := s
    cases act <;> cases iv <;>
      simp_all [WellFormed, Synced, step, pauseTimer, commit, State.remaining, State.duration]
  | reset =>
    obtain ⟨m, sec, act, brk, n, f, b, sh, iv, al⟩ := s
    cases act <;> cases iv <;>
      simp_all [WellFormed, Synced, step, resetTimer, commit, State.remaining, State.duration]
  | skip =>
    obtain ⟨m, sec, act, brk, n, f, b, sh, iv, al⟩ := s
    cases act <;> cases iv <;> cases brk <;>
      simp_all [WellFormed, Synced, step, skipSession, commit, State.remaining, State.duration]
  | toggleSettings => exact h
  | applySettings =>
    simp only [step]
    split
    · exact synced_applySettings s hw
    · exact h
  | cancel =>
    simp only [step]
    split
    · exact h
    · exact h

/-- When edits are applied at once, the armed interval always holds the current
durations and the remaining time never exceeds the current duration. -/
theorem reachableApplied_synced (s : State) (h : ReachableApplied s) : Synced s := by
  induction h with
  | init => simp [Synced, initialState, State.remaining, State.duration]
  | op o ho hr ih =>
    exact synced_step o _ ho (reachable_wellFormed _ (reachableApplied_reachable _ hr)) ih
  | @config es s hr ih =>
    rw [run_append]
    cases hsh : s.showSettings with
    | false =>
      rw [run_edits_hidden es s hsh]
      simpa [run, step, hsh] using ih
    | true =>
      have hw : WellFormed (run (es.map Op.edit) s) :=
        wellFormed_run _ _ (reachable_wellFormed _ (reachableApplied_reachable _ hr))
      have hs : (run (es.map Op.edit) s).showSettings = true := by
        rw [run_edits_showSettings, hsh]
      have e : run [Op.applySettings] (run (es.map Op.edit) s) =
          applySettings (run (es.map Op.edit) s) := by
        show (if (run (es.map Op.edit) s).showSettings = true then _ else _) = _
        rw [if_pos hs]
      rw [e]
      exact synced_applySettings _ hw

/-! ## The claims -/

/-- C1 (the code on a failing input): Start with the default 25/5 durations, open the
settings panel and press break `+` once, so that `breakTime` is 6, and let the focus
session run down to `0:00` (1500 ticks).  The next tick completes the focus session:
`sessionsCompleted` goes from 0 to 1, `isBreak` becomes true and `isActive` stays true,
but the clock is loaded with the 5 minutes captured when the interval was armed, not with
the current `breakTime`: the remaining time is 300 seconds while `breakTime * 60` is
360. -/
theorem focus_completion_loads_captured_breakTime :
    (ticks 1500 (run [.start, .toggleSettings, .edit .breakPlus] initialState)).isActive = true ∧
    (ticks 1500 (run [.start, .toggleSettings, .edit .breakPlus] initialState)).isBreak = false ∧
    (ticks 1500 (run [.start, .toggleSettings, .edit .breakPlus] initialState)).minutes = 0 ∧
    (ticks 1500 (run [.start, .toggleSettings, .edit .breakPlus] initialState)).seconds = 0 ∧
    (ticks 1500 (run [.start, .toggleSettings, .edit .breakPlus] initialState)).sessionsCompleted = 0 ∧
    (tick (ticks 1500 (run [.start, .toggleSettings, .edit .breakPlus] initialState))).sessionsCompleted = 1 ∧
    (tick (ticks 1500 (run [.start, .toggleSettings, .edit .breakPlus] initialState))).isBreak = true ∧
    (tick (ticks 1500 (run [.start, .toggleSettings, .edit .breakPlus] initialState))).isActive = true ∧
    (tick (ticks 1500 (run [.start, .toggleSettings, .edit .breakPlus] initialState))).breakTime = 6 ∧
    (tick (ticks 1500 (run [.start, .toggleSettings, .edit .breakPlus] initialState))).minutes = 5 ∧
    (tick (ticks 1500 (run [.start, .toggleSettings, .edit .breakPlus] initialState))).seconds = 0 ∧
    (tick (ticks 1500 (run [.start, .toggleSettings, .edit .breakPlus] initialState))).remaining = 300 := by
  rw [run_start_breakPlus,
    ticks_countdown 1500 _ { isBreak := false, focusTime := 25, breakTime := 5 } rfl
      (by decide) (by decide) (by decide)]
  decide

/-- C2 (the code on a failing input): Start with the default 25/5 durations and tick 1801
times: the focus session completes on tick 1501 and the break it starts has run down to
`0:00`, still running.  The next tick does not end the break: the interval was armed
during the focus session, so `handleTimerComplete` takes its focus branch again.
`isBreak` stays true, `isActive` stays true, the clock is reloaded with the break's 5
minutes, `sessionsCompleted` goes from 1 to 2 and the alert is the focus-completed one. -/
theorem break_completion_after_focus_completion :
    (ticks 1801 (startTimer initialState)).isActive = true ∧
    (ticks 1801 (startTimer initialState)).isBreak = true ∧
    (ticks 1801 (startTimer initialState)).minutes = 0 ∧
    (ticks 1801 (startTimer initialState)).seconds = 0 ∧
    (ticks 1801 (startTimer initialState)).sessionsCompleted = 1 ∧
    (tick (ticks 1801 (startTimer initialState))).isBreak = true ∧
    (tick (ticks 1801 (startTimer initialState))).isActive = true ∧
    (tick (ticks 1801 (startTimer initialState))).minutes = 5 ∧
    (tick (ticks 1801 (startTimer initialState))).seconds = 0 ∧
    (tick (ticks 1801 (startTimer initialState))).sessionsCompleted = 2 ∧
    (tick (ticks 1801 (startTimer initialState))).alerts =
      [Alert.focusCompleted, Alert.focusCompleted] := by
  rw [show 1801 = 1501 + 300 from rfl, ticks_add, ticks_1501_start,
    ticks_countdown 300 _ { isBreak := false, focusTime := 25, breakTime := 5 } rfl
      (by decide) (by decide) (by decide)]
  decide

/-- C3: for every running state (isActive true, interval armed) with seconds in [0,59]
and remaining time above 0, one tick makes the remaining time exactly one less, borrowing
a minute when seconds is 0, and leaves isActive, isBreak, sessionsCompleted, focusTime
and breakTime (and the armed interval and the alerts) unchanged. -/
theorem tick_decrements_remaining (s : State) (c : Closure) (ha : s.isActive = true)
    (hi : s.interval = some c) (h0 : 0 ≤ s.seconds) (h59 : s.seconds ≤ 59)
    (hpos : 0 < s.remaining) :
    (tick s).remaining = s.remaining - 1 ∧
    (s.seconds = 0 → (tick s).minutes = s.minutes - 1 ∧ (tick s).seconds = 59) ∧
    (s.seconds ≠ 0 → (tick s).minutes = s.minutes ∧ (tick s).seconds = s.seconds - 1) ∧
    (tick s).isActive = s.isActive ∧ (tick s).isBreak = s.isBreak ∧
    (tick s).sessionsCompleted = s.sessionsCompleted ∧
    (tick s).focusTime = s.focusTime ∧ (tick s).breakTime = s.breakTime ∧
    (tick s).interval = s.interval ∧ (tick s).alerts = s.alerts := by
  have _ := ha
  rw [tick_ordinary s c hi h0 h59 hpos]
  simp only [State.remaining] at *
  refine ⟨by omega, fun h => ⟨by omega, by omega⟩, fun h => ⟨by omega, by omega⟩, ?_⟩
  simp

/-- C3 at a concrete state: the first tick after Start takes 25:00 to 24:59. -/
theorem tick_decrements_remaining_witness :
    (startTimer initialState).isActive = true ∧
    (startTimer initialState).remaining = 1500 ∧
    (tick (startTimer initialState)).remaining = 1500 - 1 ∧
    (tick (startTimer initialState)).minutes = 24 ∧
    (tick (startTimer initialState)).seconds = 59 :=
  have h := tick_decrements_remaining (startTimer initialState)
    { isBreak := false, focusTime := 25, breakTime := 5 }
    (by decide) (by decide) (by decide) (by decide) (by decide)
  ⟨by decide, by decide, h.1, (h.2.1 (by decide)).1, (h.2.1 (by decide)).2⟩

/-- C4 (counterexample): the invariant as claimed fails.  Open the settings panel and
press focus `-` once on the freshly mounted component: `focusTime` becomes 20 while the
clock still shows 25:00, so the remaining 1500 seconds exceed `focusTime * 60 = 1200`. -/
theorem remaining_exceeds_duration_after_edit :
    Reachable (run [.toggleSettings, .edit .focusMinus] initialState) ∧
    (run [.toggleSettings, .edit .focusMinus] initialState).isBreak = false ∧
    (run [.toggleSettings, .edit .focusMinus] initialState).remaining = 1500 ∧
    (run [.toggleSettings, .edit .focusMinus] initialState).focusTime * 60 = 1200 ∧
    ¬ RemainingInRange (run [.toggleSettings, .edit .focusMinus] initialState) := by
  refine ⟨reachable_run _ _ Reachable.init, by decide, by decide, by decide, ?_⟩
  simp only [RemainingInRange]
  decide

/-- C4 (amended): in every state reachable from the initial state by start, pause, reset,
skip, tick, opening or closing the settings panel, applySettings, and settings edits
(the plus and minus buttons, typed input, presets) that are followed at once by applySettings, the
remaining time `minutes * 60 + seconds` lies in `[0, focusTime * 60]` during a focus
session and in `[0, breakTime * 60]` during a break. -/
theorem remaining_in_range_when_applied (s : State) (h : ReachableApplied s) :
    0 ≤ s.remaining ∧
    (s.isBreak = false → s.remaining ≤ s.focusTime * 60) ∧
    (s.isBreak = true → s.remaining ≤ s.breakTime * 60) := by
  have hw := reachable_wellFormed s (reachableApplied_reachable s h)
  have hs := (reachableApplied_synced s h).2
  obtain ⟨_, _, hsec, hmin, _⟩ := hw
  simp only [State.remaining, State.duration] at *
  refine ⟨by omega, fun hb => ?_, fun hb => ?_⟩
  · simpa [hb] using hs
  · simpa [hb] using hs

/-- C4 (amended) at a concrete state: open the settings, type 100 into the focus input
and apply, start, and tick once: the clock shows 59:59 of a 60-minute focus session. -/
theorem remaining_in_range_when_applied_witness :
    ReachableApplied
      (step .tick (step .start
        (run ([Edit.focusInput "100"].map Op.edit ++ [Op.applySettings])
          (step .toggleSettings initialState)))) ∧
    (step .tick (step .start
        (run ([Edit.focusInput "100"].map Op.edit ++ [Op.applySettings])
          (step .toggleSettings initialState)))).remaining = 3599 ∧
    (step .tick (step .start
        (run ([Edit.focusInput "100"].map Op.edit ++ [Op.applySettings])
          (step .toggleSettings initialState)))).remaining ≤
      (step .tick (step .start
        (run ([Edit.focusInput "100"].map Op.edit ++ [Op.applySettings])
          (step .toggleSettings initialState)))).focusTime * 60 :=
  have hr : ReachableApplied
      (step .tick (step .start
        (run ([Edit.focusInput "100"].map Op.edit ++ [Op.applySettings])
          (step .toggleSettings initialState)))) :=
    ReachableApplied.op .tick rfl (ReachableApplied.op .start rfl
      (ReachableApplied.config [Edit.focusInput "100"]
        (ReachableApplied.op .toggleSettings rfl ReachableApplied.init)))
  ⟨hr, by decide, (remaining_in_range_when_applied _ hr).2.1 (by decide)⟩

/-- C5: for every state, skipSession flips the session kind, loads the clock with the
full duration of the new kind (breakTime when entering a break, focusTime when entering
focus, seconds 0), sets isActive to false and leaves sessionsCompleted (and the durations
and the alerts) unchanged, whatever the remaining time was. -/
theorem skipSession_spec (s : State) :
    (skipSession s).isBreak = !s.isBreak ∧
    (s.isBreak = false →
      (skipSession s).minutes = s.breakTime ∧ (skipSession s).remaining = s.breakTime * 60) ∧
    (s.isBreak = true →
      (skipSession s).minutes = s.focusTime ∧ (skipSession s).remaining = s.focusTime * 60) ∧
    (skipSession s).seconds = 0 ∧
    (skipSession s).isActive = false ∧
    (skipSession s).sessionsCompleted = s.sessionsCompleted ∧
    (skipSession s).focusTime = s.focusTime ∧ (skipSession s).breakTime = s.breakTime ∧
    (skipSession s).alerts = s.alerts := by
  obtain ⟨m, sec, act, brk, n, f, b, sh, iv, al⟩ := s
  cases act <;> cases brk <;> simp [skipSession, commit, State.remaining]

/-- C6: for every state, idle or running, focus or break, and every configuration,
resetTimer yields isBreak false, isActive false, minutes equal to focusTime and seconds 0
(remaining time `focusTime * 60`), and leaves sessionsCompleted, focusTime and breakTime
unchanged. -/
theorem resetTimer_spec (s : State) :
    (resetTimer s).isBreak = false ∧ (resetTimer s).isActive = false ∧
    (resetTimer s).minutes = s.focusTime ∧ (resetTimer s).seconds = 0 ∧
    (resetTimer s).remaining = s.focusTime * 60 ∧
    (resetTimer s).sessionsCompleted = s.sessionsCompleted ∧
    (resetTimer s).focusTime = s.focusTime ∧ (resetTimer s).breakTime = s.breakTime := by
  obtain ⟨m, sec, act, brk, n, f, b, sh, iv, al⟩ := s
  cases act <;> simp [resetTimer, commit, State.remaining]

/-- C7: for every state, a running break included, applySettings and resetTimer produce
the same timer state (minutes, seconds, isActive, isBreak, sessionsCompleted, focusTime,
breakTime, and the same interval and alerts), namely idle focus with remaining time
`focusTime * 60`; the only difference is that applySettings closes the settings panel
while resetTimer leaves showSettings as it was. -/
theorem applySettings_eq_resetTimer (s : State) :
    applySettings s = { resetTimer s with showSettings := false } ∧
    (resetTimer s).showSettings = s.showSettings ∧
    (applySettings s).minutes = (resetTimer s).minutes ∧
    (applySettings s).seconds = (resetTimer s).seconds ∧
    (applySettings s).isActive = (resetTimer s).isActive ∧
    (applySettings s).isBreak = (resetTimer s).isBreak ∧
    (applySettings s).sessionsCompleted = (resetTimer s).sessionsCompleted ∧
    (applySettings s).focusTime = (resetTimer s).focusTime ∧
    (applySettings s).breakTime = (resetTimer s).breakTime ∧
    (applySettings s).isActive = false ∧ (applySettings s).isBreak = false ∧
    (applySettings s).remaining = s.focusTime * 60 := by
  obtain ⟨m, sec, act, brk, n, f, b, sh, iv, al⟩ := s
  cases act <;> simp [applySettings, resetTimer, commit, State.remaining]

/-- C8: for every typed input string the focus-time handler stores `max(1, min(60, n))`
where `n` is the integer `parseInt` reads from the input, and 1 when the input is not
numeric (`parseInt` gives NaN); the break-time handler does the same with upper bound 30.
The stored value is always an integer, within [1,60] and [1,30], never NaN. -/
theorem input_handlers_clamp (v : String) (s : State) :
    (focusInput v s).focusTime =
      (match parseInt v with
       | some n => max 1 (min 60 n)
       | none => 1) ∧
    (breakInput v s).breakTime =
      (match parseInt v with
       | some n => max 1 (min 30 n)
       | none => 1) ∧
    (1 ≤ (focusInput v s).focusTime ∧ (focusInput v s).focusTime ≤ 60) ∧
    (1 ≤ (breakInput v s).breakTime ∧ (breakInput v s).breakTime ≤ 30) := by
  simp only [focusInput, breakInput, jsOr]
  cases parseInt v with
  | none => simp
  | some n =>
    by_cases h : n = 0
    · subst h
      simp
    · simp only [h, if_false, true_and]
      constructor <;> omega

/-- C9 (counterexample): with focusTime 25 and breakTime 5, Start followed by exactly
1500 ticks does not yield the claimed state: the clock shows `0:00` but the focus session
is still on, no alert has been raised and sessionsCompleted is 0. -/
theorem focus_scenario_1500_ticks_not_completed :
    (ticks 1500 (startTimer initialState)).remaining = 0 ∧
    (ticks 1500 (startTimer initialState)).isBreak = false ∧
    (ticks 1500 (startTimer initialState)).sessionsCompleted = 0 ∧
    (ticks 1500 (startTimer initialState)).alerts = [] ∧
    ¬ ((ticks 1500 (startTimer initialState)).alerts = [Alert.focusCompleted] ∧
       (ticks 1500 (startTimer initialState)).isBreak = true ∧
       (ticks 1500 (startTimer initialState)).remaining = 300 ∧
       (ticks 1500 (startTimer initialState)).sessionsCompleted = 1 ∧
       (ticks 1500 (startTimer initialState)).isActive = true) := by
  rw [ticks_1500_start]
  decide

/-- C9 (amended): with focusTime 25 and breakTime 5, Start followed by exactly 1501 ticks
yields exactly one focus-completed alert, isBreak true, remaining time 300 seconds,
sessionsCompleted 1 and isActive true: the 1500th tick brings the remaining time to 0 and
the completion is applied by the next tick. -/
theorem focus_scenario_1501_ticks :
    (ticks 1501 (startTimer initialState)).alerts = [Alert.focusCompleted] ∧
    (ticks 1501 (startTimer initialState)).isBreak = true ∧
    (ticks 1501 (startTimer initialState)).remaining = 300 ∧
    (ticks 1501 (startTimer initialState)).sessionsCompleted = 1 ∧
    (ticks 1501 (startTimer initialState)).isActive = true ∧
    (ticks 1500 (startTimer initialState)).remaining = 0 ∧
    (ticks 1500 (startTimer initialState)).alerts = [] := by
  rw [ticks_1501_start, ticks_1500_start]
  decide

/-- C10 (the code on the failing input): with the 25/5 durations, Start and 1501 ticks
complete the focus session and start the break.  300 further ticks bring the break to
`0:00` and the next tick, the 301st, completes it.  That tick does not end the break: the
interval was armed during the focus session, so `handleTimerComplete` takes its focus
branch again.  The alert is the focus-completed one and no break-over alert is raised,
isBreak stays true, the remaining time is 300 seconds and not 1500, isActive stays true
and sessionsCompleted goes from 1 to 2.  With the claim's own count, 300 ticks after
Start and 1500 ticks, the break is still running with one second left. -/
theorem break_scenario_repeats_focus_completion :
    ((ticks 300 (ticks 1501 (startTimer initialState))).remaining = 0 ∧
      (ticks 300 (ticks 1501 (startTimer initialState))).isBreak = true ∧
      (ticks 300 (ticks 1501 (startTimer initialState))).isActive = true ∧
      (ticks 300 (ticks 1501 (startTimer initialState))).sessionsCompleted = 1 ∧
      (ticks 300 (ticks 1501 (startTimer initialState))).alerts = [Alert.focusCompleted]) ∧
    ((ticks 301 (ticks 1501 (startTimer initialState))).alerts =
        [Alert.focusCompleted, Alert.focusCompleted] ∧
      Alert.breakOver ∉ (ticks 301 (ticks 1501 (startTimer initialState))).alerts ∧
      (ticks 301 (ticks 1501 (startTimer initialState))).isBreak = true ∧
      (ticks 301 (ticks 1501 (startTimer initialState))).remaining = 300 ∧
      (ticks 301 (ticks 1501 (startTimer initialState))).isActive = true ∧
      (ticks 301 (ticks 1501 (startTimer initialState))).sessionsCompleted = 2) ∧
    ((ticks 300 (ticks 1500 (startTimer initialState))).isBreak = true ∧
      (ticks 300 (ticks 1500 (startTimer initialState))).remaining = 1 ∧
      (ticks 300 (ticks 1500 (startTimer initialState))).isActive = true ∧
      (ticks 300 (ticks 1500 (startTimer initialState))).sessionsCompleted = 1 ∧
      (ticks 300 (ticks 1500 (startTimer initialState))).alerts = [Alert.focusCompleted]) := by
  have h300 : ticks 300 (ticks 1501 (startTimer initialState)) =
      { initialState with minutes := 0, isActive := true, isBreak := true,
                          sessionsCompleted := 1, alerts := [Alert.focusCompleted],
                          interval := some { isBreak := false, focusTime := 25, breakTime := 5 } } := by
    rw [ticks_1501_start,
      ticks_countdown 300 _ { isBreak := false, focusTime := 25, breakTime := 5 } rfl
        (by decide) (by decide) (by decide)]
    decide
  have h301 : ticks 301 (ticks 1501 (startTimer initialState)) =
      { initialState with minutes := 5, isActive := true, isBreak := true,
                          sessionsCompleted := 2,
                          alerts := [Alert.focusCompleted, Alert.focusCompleted],
                          interval := some { isBreak := false, focusTime := 25, breakTime := 5 } } := by
    rw [show 301 = 300 + 1 from rfl, ticks_add, h300]
    decide
  have h299 : ticks 300 (ticks 1500 (startTimer initialState)) =
      { initialState with minutes := 0, seconds := 1, isActive := true, isBreak := true,
                          sessionsCompleted := 1, alerts := [Alert.focusCompleted],
                          interval := some { isBreak := false, focusTime := 25, breakTime := 5 } } := by
    rw [← ticks_add, show 1500 + 300 = 1501 + 299 from rfl, ticks_add, ticks_1501_start,
      ticks_countdown 299 _ { isBreak := false, focusTime := 25, breakTime := 5 } rfl
        (by decide) (by decide) (by decide)]
    decide
  rw [h300, h301, h299]
  decide

/-! ## Further helpers -/

/-- A break that a focus completion started, with the interval still the one armed during
the focus session: 301 ticks later the focus branch of `handleTimerComplete` has run
again, the break restarts and the session count has grown. -/
theorem ticks_301_break_after_focus (n : Nat) (al : List Alert) :
    ticks 301 { initialState with minutes := 5, isActive := true, isBreak := true,
                                  sessionsCompleted := n, alerts := al,
                                  interval := some { isBreak := false, focusTime := 25, breakTime := 5 } } =
      { initialState with minutes := 5, isActive := true, isBreak := true,
                          sessionsCompleted := n + 1, alerts := al ++ [Alert.focusCompleted],
                          interval := some { isBreak := false, focusTime := 25, breakTime := 5 } } := by
  rw [show 301 = 300 + 1 from rfl, ticks_add,
    ticks_countdown 300 _ { isBreak := false, focusTime := 25, breakTime := 5 } rfl
      (by simp [initialState]) (by simp [initialState])
      (by simp [initialState, State.remaining])]
  simp [ticks, tick, intervalCallback, handleTimerComplete, commit, initialState, State.remaining]

/-- With the default durations, 1802 ticks after Start. -/
theorem ticks_1802_start :
    ticks 1802 (startTimer initialState) =
      { initialState with minutes := 5, isActive := true, isBreak := true,
                          sessionsCompleted := 2,
                          alerts := [Alert.focusCompleted, Alert.focusCompleted],
                          interval := some { isBreak := false, focusTime := 25, breakTime := 5 } } := by
  rw [show 1802 = 1501 + 301 from rfl, ticks_add, ticks_1501_start]
  exact ticks_301_break_after_focus 1 [Alert.focusCompleted]

/-- With the default durations, 2103 ticks after Start. -/
theorem ticks_2103_start :
    ticks 2103 (startTimer initialState) =
      { initialState with minutes := 5, isActive := true, isBreak := true,
                          sessionsCompleted := 3,
                          alerts := [Alert.focusCompleted, Alert.focusCompleted, Alert.focusCompleted],
                          interval := some { isBreak := false, focusTime := 25, breakTime := 5 } } := by
  rw [show 2103 = 1802 + 301 from rfl, ticks_add, ticks_1802_start]
  exact ticks_301_break_after_focus 2 [Alert.focusCompleted, Alert.focusCompleted]

/-- With no interval armed no tick is delivered, however long one waits. -/
theorem ticks_interval_none (n : Nat) (s : State) (h : s.interval = none) : ticks n s = s := by
  induction n with
  | zero => rfl
  | succ n ih =>
    have h1 : tick s = s := by simp [tick, h]
    simp only [ticks, h1]
    exact ih

/-! ## The claims, continued -/

/-- C11 (the code on a failing input): Start with the default 25/5 durations and let the
timer run.  The focus session completes on tick 1501 (`sessionsCompleted` 1).  The break
it starts ends on tick 1802, and that tick raises `sessionsCompleted` to 2; the break
starts over and its next end, on tick 2103, raises it to 3.  Only one focus session has
run down to 0, and every alert is the focus-completed one. -/
theorem sessionsCompleted_grows_when_break_ends :
    (ticks 1501 (startTimer initialState)).sessionsCompleted = 1 ∧
    (ticks 1501 (startTimer initialState)).isBreak = true ∧
    (ticks 1802 (startTimer initialState)).sessionsCompleted = 2 ∧
    (ticks 1802 (startTimer initialState)).isBreak = true ∧
    (ticks 2103 (startTimer initialState)).sessionsCompleted = 3 ∧
    (ticks 2103 (startTimer initialState)).isBreak = true ∧
    (ticks 2103 (startTimer initialState)).alerts =
      [Alert.focusCompleted, Alert.focusCompleted, Alert.focusCompleted] := by
  rw [ticks_1501_start, ticks_1802_start, ticks_2103_start]
  decide

/-- C12: for every idle state, startTimer sets isActive to true and leaves minutes,
seconds, isBreak, sessionsCompleted, focusTime and breakTime (and showSettings and the
alerts) unchanged; for every already running state, startTimer returns the state
unchanged. -/
theorem startTimer_spec (s : State) :
    (s.isActive = false →
      (startTimer s).isActive = true ∧
      (startTimer s).minutes = s.minutes ∧ (startTimer s).seconds = s.seconds ∧
      (startTimer s).isBreak = s.isBreak ∧
      (startTimer s).sessionsCompleted = s.sessionsCompleted ∧
      (startTimer s).focusTime = s.focusTime ∧ (startTimer s).breakTime = s.breakTime ∧
      (startTimer s).showSettings = s.showSettings ∧ (startTimer s).alerts = s.alerts) ∧
    (s.isActive = true → startTimer s = s) := by
  obtain ⟨m, sec, act, brk, n, f, b, sh, iv, al⟩ := s
  cases act <;> simp [startTimer, commit]

/-- C13: for every running state, pauseTimer sets isActive to false and preserves
minutes and seconds (the remaining time), isBreak, sessionsCompleted and the durations;
for every idle state, pauseTimer returns the state unchanged; a start after the pause is
running again with the same minutes and seconds.  Pause disarms the interval: however
many ticks of the clock pass during the pause, the paused state does not change, and a
Start after them resumes from the same minutes and seconds; this holds for every running
state and for every reachable state. -/
theorem pauseTimer_spec (s : State) :
    (s.isActive = true →
      (pauseTimer s).isActive = false ∧
      (pauseTimer s).minutes = s.minutes ∧ (pauseTimer s).seconds = s.seconds ∧
      (pauseTimer s).remaining = s.remaining ∧
      (pauseTimer s).isBreak = s.isBreak ∧
      (pauseTimer s).sessionsCompleted = s.sessionsCompleted ∧
      (pauseTimer s).focusTime = s.focusTime ∧ (pauseTimer s).breakTime = s.breakTime) ∧
    (s.isActive = false → pauseTimer s = s) ∧
    ((startTimer (pauseTimer s)).isActive = true ∧
      (startTimer (pauseTimer s)).interval.isSome = true ∧
      (startTimer (pauseTimer s)).minutes = s.minutes ∧
      (startTimer (pauseTimer s)).seconds = s.seconds ∧
      (startTimer (pauseTimer s)).remaining = s.remaining ∧
      (startTimer (pauseTimer s)).isBreak = s.isBreak ∧
      (startTimer (pauseTimer s)).sessionsCompleted = s.sessionsCompleted) ∧
    (s.isActive = true →
      (pauseTimer s).interval = none ∧
      ∀ n : Nat,
        ticks n (pauseTimer s) = pauseTimer s ∧
        (startTimer (ticks n (pauseTimer s))).isActive = true ∧
        (startTimer (ticks n (pauseTimer s))).interval.isSome = true ∧
        (startTimer (ticks n (pauseTimer s))).minutes = s.minutes ∧
        (startTimer (ticks n (pauseTimer s))).seconds = s.seconds ∧
        (startTimer (ticks n (pauseTimer s))).remaining = s.remaining) ∧
    (Reachable s →
      (pauseTimer s).interval = none ∧
      ∀ n : Nat,
        ticks n (pauseTimer s) = pauseTimer s ∧
        (startTimer (ticks n (pauseTimer s))).isActive = true ∧
        (startTimer (ticks n (pauseTimer s))).interval.isSome = true ∧
        (startTimer (ticks n (pauseTimer s))).minutes = s.minutes ∧
        (startTimer (ticks n (pauseTimer s))).seconds = s.seconds ∧
        (startTimer (ticks n (pauseTimer s))).remaining = s.remaining) := by
  have base : (s.isActive = true →
      (pauseTimer s).isActive = false ∧
      (pauseTimer s).minutes = s.minutes ∧ (pauseTimer s).seconds = s.seconds ∧
      (pauseTimer s).remaining = s.remaining ∧
      (pauseTimer s).isBreak = s.isBreak ∧
      (pauseTimer s).sessionsCompleted = s.sessionsCompleted ∧
      (pauseTimer s).focusTime = s.focusTime ∧ (pauseTimer s).breakTime = s.breakTime) ∧
    (s.isActive = false → pauseTimer s = s) ∧
    ((startTimer (pauseTimer s)).isActive = true ∧
      (startTimer (pauseTimer s)).interval.isSome = true ∧
      (startTimer (pauseTimer s)).minutes = s.minutes ∧
      (startTimer (pauseTimer s)).seconds = s.seconds ∧
      (startTimer (pauseTimer s)).remaining = s.remaining ∧
      (startTimer (pauseTimer s)).isBreak = s.isBreak ∧
      (startTimer (pauseTimer s)).sessionsCompleted = s.sessionsCompleted) := by
    obtain ⟨m, sec, act, brk, n, f, b, sh, iv, al⟩ := s
    cases act <;> simp [startTimer, pauseTimer, commit, State.remaining]
  have later : (pauseTimer s).interval = none →
      ∀ n : Nat,
        ticks n (pauseTimer s) = pauseTimer s ∧
        (startTimer (ticks n (pauseTimer s))).isActive = true ∧
        (startTimer (ticks n (pauseTimer s))).interval.isSome = true ∧
        (startTimer (ticks n (pauseTimer s))).minutes = s.minutes ∧
        (startTimer (ticks n (pauseTimer s))).seconds = s.seconds ∧
        (startTimer (ticks n (pauseTimer s))).remaining = s.remaining := by
    intro hn n
    rw [ticks_interval_none n _ hn]
    exact ⟨rfl, base.2.2.1, base.2.2.2.1, base.2.2.2.2.1, base.2.2.2.2.2.1,
      base.2.2.2.2.2.2.1⟩
  have armedOff : s.isActive = true → (pauseTimer s).interval = none := by
    obtain ⟨m, sec, act, brk, n, f, b, sh, iv, al⟩ := s
    intro h
    simp only at h
    subst h
    simp [pauseTimer, commit]
  refine ⟨base.1, base.2.1, base.2.2, fun ha => ⟨armedOff ha, later (armedOff ha)⟩,
    fun hr => ?_⟩
  have hoff : (pauseTimer s).interval = none := by
    cases ha : s.isActive with
    | true => exact armedOff ha
    | false =>
      rw [base.2.1 ha]
      have hw := (reachable_wellFormed s hr).2.2.2.2.1
      rw [ha] at hw
      cases hi : s.interval with
      | none => rfl
      | some c => rw [hi] at hw; simp at hw
  exact ⟨hoff, later hoff⟩

/-- C14: for every state `s`, `pauseTimer (startTimer s)` has the same minutes and
seconds (the same remaining time) as `s`; and when `s` is idle (isActive false and, as in
every reachable idle state, no interval armed), `pauseTimer (startTimer s) = s`. -/
theorem pause_after_start (s : State) :
    (pauseTimer (startTimer s)).minutes = s.minutes ∧
    (pauseTimer (startTimer s)).seconds = s.seconds ∧
    (pauseTimer (startTimer s)).remaining = s.remaining ∧
    (s.isActive = false → s.interval = none → pauseTimer (startTimer s) = s) ∧
    (Reachable s → s.isActive = false → pauseTimer (startTimer s) = s) := by
  have key : s.isActive = false → s.interval = none → pauseTimer (startTimer s) = s := by
    obtain ⟨m, sec, act, brk, n, f, b, sh, iv, al⟩ := s
    intro h1 h2
    simp only at h1 h2
    subst h1 h2
    simp [startTimer, pauseTimer, commit]
  refine ⟨?_, ?_, ?_, key, fun hr ha => key ha ?_⟩
  · obtain ⟨m, sec, act, brk, n, f, b, sh, iv, al⟩ := s
    cases act <;> simp [startTimer, pauseTimer, commit]
  · obtain ⟨m, sec, act, brk, n, f, b, sh, iv, al⟩ := s
    cases act <;> simp [startTimer, pauseTimer, commit]
  · obtain ⟨m, sec, act, brk, n, f, b, sh, iv, al⟩ := s
    cases act <;> simp [startTimer, pauseTimer, commit, State.remaining]
  · have hw := (reachable_wellFormed s hr).2.2.2.2.1
    rw [ha] at hw
    cases hi : s.interval with
    | none => rfl
    | some c => rw [hi] at hw; simp at hw

/-- C15: pauseTimer is idempotent: for every state `s`,
`pauseTimer (pauseTimer s) = pauseTimer s`. -/
theorem pauseTimer_idempotent (s : State) : pauseTimer (pauseTimer s) = pauseTimer s := by
  obtain ⟨m, sec, act, brk, n, f, b, sh, iv, al⟩ := s
  cases act <;> simp [pauseTimer, commit]

/-- C16: for every running state (isActive true, interval armed) with seconds in [0,59]
and remaining time `r = minutes * 60 + seconds`, and every `k ≤ r`, after `k` consecutive
ticks the remaining time is exactly `r - k`, with the session kind, isActive and
sessionsCompleted (and the alerts) unchanged; hence along these ticks the remaining time
never increases. -/
theorem ticks_count_down (s : State) (c : Closure) (k : Nat) (ha : s.isActive = true)
    (hi : s.interval = some c) (h0 : 0 ≤ s.seconds) (h59 : s.seconds ≤ 59)
    (hk : (k : Int) ≤ s.remaining) :
    (ticks k s).remaining = s.remaining - k ∧
    (ticks k s).isBreak = s.isBreak ∧ (ticks k s).isActive = s.isActive ∧
    (ticks k s).sessionsCompleted = s.sessionsCompleted ∧
    (ticks k s).alerts = s.alerts ∧
    (∀ j : Nat, j ≤ k → (ticks k s).remaining ≤ (ticks j s).remaining) := by
  have _ := ha
  have rem : ∀ j : Nat, (j : Int) ≤ s.remaining → (ticks j s).remaining = s.remaining - j := by
    intro j hj
    rw [ticks_countdown j s c hi h0 h59 hj]
    simp only [State.remaining]
    omega
  refine ⟨rem k hk, ?_, ?_, ?_, ?_, ?_⟩
  · rw [ticks_countdown k s c hi h0 h59 hk]
  · rw [ticks_countdown k s c hi h0 h59 hk]
  · rw [ticks_countdown k s c hi h0 h59 hk]
  · rw [ticks_countdown k s c hi h0 h59 hk]
  · intro j hj
    have hj2 : (j : Int) ≤ s.remaining := by
      have : (j : Int) ≤ (k : Int) := by exact_mod_cast hj
      omega
    rw [rem k hk, rem j hj2]
    have : (j : Int) ≤ (k : Int) := by exact_mod_cast hj
    omega

/-- C16 at a concrete state: 90 ticks after Start take 25:00 down to 23:30. -/
theorem ticks_count_down_witness :
    (startTimer initialState).isActive = true ∧
    (startTimer initialState).remaining = 1500 ∧
    (ticks 90 (startTimer initialState)).remaining = 1500 - 90 ∧
    (ticks 90 (startTimer initialState)).sessionsCompleted = 0 :=
  have h := ticks_count_down (startTimer initialState)
    { isBreak := false, focusTime := 25, breakTime := 5 } 90
    (by decide) (by decide) (by decide) (by decide) (by decide)
  ⟨by decide, by decide, h.1, h.2.2.2.1⟩

/-- C17: FocusMode starts as an idle focus session: isBreak false, isActive false,
sessionsCompleted 0, no interval armed, and remaining time `minutes * 60 + seconds` equal
to `focusTime * 60`, which is 25:00 with the default focusTime 25 and breakTime 5. -/
theorem initialState_spec :
    initialState.isBreak = false ∧ initialState.isActive = false ∧
    initialState.sessionsCompleted = 0 ∧ initialState.interval = none ∧
    initialState.focusTime = 25 ∧ initialState.breakTime = 5 ∧
    initialState.minutes = 25 ∧ initialState.seconds = 0 ∧
    initialState.remaining = initialState.focusTime * 60 ∧
    initialState.remaining = 1500 := by
  decide

/-- C18: from any state, the focus-time input receiving `100`, the break-time input
receiving `0` and then Apply yield focusTime 60, breakTime 1 and an idle focus state with
remaining time 3600 seconds (minutes 60, seconds 0, isActive false, isBreak false); with
the settings panel open this is what the three operations do in sequence. -/
theorem config_scenario (s : State) :
    (applySettings (breakInput "0" (focusInput "100" s))).focusTime = 60 ∧
    (applySettings (breakInput "0" (focusInput "100" s))).breakTime = 1 ∧
    (applySettings (breakInput "0" (focusInput "100" s))).minutes = 60 ∧
    (applySettings (breakInput "0" (focusInput "100" s))).seconds = 0 ∧
    (applySettings (breakInput "0" (focusInput "100" s))).remaining = 3600 ∧
    (applySettings (breakInput "0" (focusInput "100" s))).isActive = false ∧
    (applySettings (breakInput "0" (focusInput "100" s))).isBreak = false ∧
    (s.showSettings = true →
      run [.edit (.focusInput "100"), .edit (.breakInput "0"), .applySettings] s =
        applySettings (breakInput "0" (focusInput "100" s))) := by
  have h1 : parseInt "100" = some 100 := by decide
  have h2 : parseInt "0" = some 0 := by decide
  obtain ⟨m, sec, act, brk, n, f, b, sh, iv, al⟩ := s
  refine ⟨?_, ?_, ?_, ?_, ?_, ?_, ?_, fun h => ?_⟩
  case refine_8 =>
    simp only at h
    subst h
    simp [run, step, Edit.apply, focusInput, breakInput]
  all_goals
    cases act <;>
      simp [applySettings, breakInput, focusInput, commit, jsOr, h1, h2, State.remaining]

/-- The state after opening the settings and pressing focus `-` once on the freshly
mounted component: `focusTime` is 20 and the clock still shows 25:00. -/
theorem run_focusMinus :
    run [.toggleSettings, .edit .focusMinus] initialState =
      { initialState with focusTime := 20, showSettings := true } := by
  decide

/-- C19 (counterexample): the fraction is not always within [0,1].  Open the settings
panel and press focus `-` once on the freshly mounted component: `focusTime` becomes 20
with 25:00 on the clock, so the fraction is `(1200 - 1500) / 1200 = -1/4` and the width
is `-25%`. -/
theorem progress_fraction_negative_after_edit :
    Reachable (run [.toggleSettings, .edit .focusMinus] initialState) ∧
    progressFraction (run [.toggleSettings, .edit .focusMinus] initialState) = some (-1 / 4) ∧
    progressWidth (run [.toggleSettings, .edit .focusMinus] initialState) = some (-25) ∧
    ¬ ∃ q : ℚ, progressFraction (run [.toggleSettings, .edit .focusMinus] initialState) = some q ∧
        0 ≤ q ∧ q ≤ 1 := by
  have hf : progressFraction (run [.toggleSettings, .edit .focusMinus] initialState) =
      some (-1 / 4) := by
    rw [run_focusMinus]
    simp only [progressFraction, initialState]
    norm_num
  refine ⟨reachable_run _ _ Reachable.init, hf, ?_, ?_⟩
  · rw [progressWidth, hf]
    norm_num
  · rintro ⟨q, hq, h0, _⟩
    rw [hf] at hq
    cases hq
    norm_num at h0

/-- C19 (amended): in every reachable state the total
`(isBreak ? breakTime : focusTime) * 60` is positive and the progress bar's fraction equals
`(total - remaining) / total` with `remaining = minutes * 60 + seconds`; in every state
reachable with settings edits followed at once by applySettings the fraction lies in
[0,1], so the bar width is between 0% and 100%. -/
theorem progress_fraction_in_range_when_applied (s : State) (h : ReachableApplied s) :
    0 < s.duration * 60 ∧
    progressFraction s =
      some (((s.duration * 60 - s.remaining : Int) : ℚ) / ((s.duration * 60 : Int) : ℚ)) ∧
    (∃ q : ℚ, progressFraction s = some q ∧ 0 ≤ q ∧ q ≤ 1 ∧
      progressWidth s = some (q * 100) ∧ 0 ≤ q * 100 ∧ q * 100 ≤ 100) ∧
    (∀ t : State, Reachable t →
      0 < t.duration * 60 ∧
      progressFraction t =
        some (((t.duration * 60 - t.remaining : Int) : ℚ) / ((t.duration * 60 : Int) : ℚ))) := by
  have all : ∀ t : State, Reachable t →
      0 < t.duration * 60 ∧
      progressFraction t =
        some (((t.duration * 60 - t.remaining : Int) : ℚ) / ((t.duration * 60 : Int) : ℚ)) := by
    intro t ht
    obtain ⟨hf, hb, _⟩ := reachable_wellFormed t ht
    have hd : 0 < t.duration * 60 := by
      simp only [State.duration]
      split <;> omega
    have hne : t.duration * 60 ≠ 0 := by omega
    refine ⟨hd, ?_⟩
    simp only [State.duration, State.remaining] at hne ⊢
    simp only [progressFraction, hne, if_false]
  have hw := reachable_wellFormed s (reachableApplied_reachable s h)
  have hs := (reachableApplied_synced s h).2
  obtain ⟨hf, hb, hsec, hmin, _⟩ := hw
  obtain ⟨hd, heq⟩ := all s (reachableApplied_reachable s h)
  have hr : 0 ≤ s.remaining := by
    simp only [State.remaining]
    omega
  have hdq : (0 : ℚ) < ((s.duration * 60 : Int) : ℚ) := by exact_mod_cast hd
  have hnum0 : (0 : ℚ) ≤ ((s.duration * 60 - s.remaining : Int) : ℚ) := by
    have : 0 ≤ s.duration * 60 - s.remaining := by omega
    exact_mod_cast this
  have hnum1 : ((s.duration * 60 - s.remaining : Int) : ℚ) ≤ ((s.duration * 60 : Int) : ℚ) := by
    have : s.duration * 60 - s.remaining ≤ s.duration * 60 := by omega
    exact_mod_cast this
  have q0 := div_nonneg hnum0 hdq.le
  have q1 := (div_le_one hdq).mpr hnum1
  refine ⟨hd, heq, ⟨_, heq, q0, q1, ?_, by positivity, by linarith⟩, all⟩
  rw [progressWidth, heq]
  rfl

/-- C19 (amended) at a concrete state: one tick into the first focus session the
fraction is within [0,1]. -/
theorem progress_fraction_in_range_when_applied_witness :
    ReachableApplied (step .tick (step .start initialState)) ∧
    ∃ q : ℚ, progressFraction (step .tick (step .start initialState)) = some q ∧
      0 ≤ q ∧ q ≤ 1 :=
  have hr : ReachableApplied (step .tick (step .start initialState)) :=
    ReachableApplied.op .tick rfl (ReachableApplied.op .start rfl ReachableApplied.init)
  have h := progress_fraction_in_range_when_applied _ hr
  ⟨hr, h.2.2.1.imp fun _ hq => ⟨hq.1, hq.2.1, hq.2.2.1⟩⟩

/-- C20: in every state reachable through any sequence of settings actions (the focus
and break plus and minus buttons, typed input, the three presets) and timer operations,
focusTime is an integer in [1,60] and breakTime is an integer in [1,30]. -/
theorem config_in_range (s : State) (h : Reachable s) :
    (1 ≤ s.focusTime ∧ s.focusTime ≤ 60) ∧ (1 ≤ s.breakTime ∧ s.breakTime ≤ 30) :=
  have hw := reachable_wellFormed s h
  ⟨hw.1, hw.2.1⟩

/-- C20 at a concrete state: open the settings, type 100 into the focus input and 0 into
the break input: the stored durations are 60 and 1. -/
theorem config_in_range_witness :
    Reachable (run [.toggleSettings, .edit (.focusInput "100"), .edit (.breakInput "0")]
      initialState) ∧
    (run [.toggleSettings, .edit (.focusInput "100"), .edit (.breakInput "0")]
      initialState).focusTime = 60 ∧
    (run [.toggleSettings, .edit (.focusInput "100"), .edit (.breakInput "0")]
      initialState).breakTime = 1 ∧
    (1 ≤ (run [.toggleSettings, .edit (.focusInput "100"), .edit (.breakInput "0")]
      initialState).focusTime ∧
     (run [.toggleSettings, .edit (.focusInput "100"), .edit (.breakInput "0")]
      initialState).focusTime ≤ 60) :=
  have hr := reachable_run [.toggleSettings, .edit (.focusInput "100"), .edit (.breakInput "0")]
    initialState Reachable.init
  ⟨hr, by decide, by decide, (config_in_range _ hr).1⟩

/-! ## Helpers for the last claims -/

/-- With the default durations, 1801 ticks after Start the auto-started break has run
down to `0:00` and is still running. -/
theorem ticks_1801_start :
    ticks 1801 (startTimer initialState) =
      { initialState with minutes := 0, isActive := true, isBreak := true,
                          sessionsCompleted := 1, alerts := [Alert.focusCompleted],
                          interval := some { isBreak := false, focusTime := 25, breakTime := 5 } } := by
  rw [show 1801 = 1501 + 300 from rfl, ticks_add, ticks_1501_start,
    ticks_countdown 300 _ { isBreak := false, focusTime := 25, breakTime := 5 } rfl
      (by decide) (by decide) (by decide)]
  decide

/-- An interval armed during a focus session and left running never raises the
break-over alert and is never replaced. -/
theorem tick_focus_closure_no_breakOver (s : State) (c : Closure)
    (hi : s.interval = some c) (hc : c.isBreak = false) (ha : s.isActive = true)
    (hn : Alert.breakOver ∉ s.alerts) :
    (tick s).interval = some c ∧ (tick s).isActive = true ∧
    Alert.breakOver ∉ (tick s).alerts := by
  obtain ⟨m, sec, act, brk, n, f, b, sh, iv, al⟩ := s
  simp only at hi ha hn
  subst hi ha
  simp only [tick, intervalCallback, handleTimerComplete, commit, hc]
  by_cases h1 : sec = 0
  · by_cases h2 : m = 0
    · simp [h1, h2, hn]
    · simp [h1, h2, hn]
  · simp [h1, hn]

/-- Left running after Start on the freshly mounted component, the timer never raises the
break-over alert. -/
theorem ticks_start_no_breakOver (n : Nat) :
    Alert.breakOver ∉ (ticks n (startTimer initialState)).alerts := by
  have gen : ∀ (k : Nat) (s : State) (c : Closure), s.interval = some c → c.isBreak = false →
      s.isActive = true → Alert.breakOver ∉ s.alerts →
      Alert.breakOver ∉ (ticks k s).alerts := by
    intro k
    induction k with
    | zero => intro s c _ _ _ hn; exact hn
    | succ k ih =>
      intro s c hi hc ha hn
      obtain ⟨h1, h2, h3⟩ := tick_focus_closure_no_breakOver s c hi hc ha hn
      exact ih (tick s) c h1 hc h2 h3
  exact gen n (startTimer initialState) { isBreak := false, focusTime := 25, breakTime := 5 }
    (by decide) rfl (by decide) (by decide)

/-- One commit keeps the timers in line with `isActive`. -/
theorem timersFor_commit (was now : Bool) (t : Timers) (h : TimersFor was t) :
    TimersFor now (commitTimers was now t) := by
  obtain ⟨r, l, n⟩ := t
  cases was <;> cases now <;>
    simp_all [TimersFor, commitTimers, effectBody, effectCleanup, clearInterval]
  · cases r <;> simp
  · obtain ⟨i, hr, hl⟩ := h
    subst hr hl
    simp

/-- The component of a reachable pair is a reachable state, and its timers are in line
with `isActive`. -/
theorem reachableWithTimers_inv (s : State) (t : Timers) (h : ReachableWithTimers s t) :
    Reachable s ∧ TimersFor s.isActive t := by
  induction h with
  | init => exact ⟨Reachable.init, by simp [TimersFor, initialState, mountTimers, effectBody,
      clearInterval]⟩
  | step op _ ih => exact ⟨Reachable.step op ih.1, timersFor_commit _ _ _ ih.2⟩

/-- Two decimal digits: `padStart(2, '0')` of the decimal form of a number below 100. -/
theorem padStart2_two_digits :
    ∀ n : Nat, n < 100 →
      padStart2 (jsToString (n : Int)) = String.mk [Nat.digitChar (n / 10), Nat.digitChar (n % 10)] := by
  decide

/-! ## The last claims -/

/-- C21: start, pause, reset, skip, tick (completing or not), applySettings, and also
opening the panel and Cancel, leave focusTime and breakTime unchanged: an operation that
is not a settings edit never changes them. -/
theorem config_frame (o : Op) (s : State) (ho : o.isEdit = false) :
    (step o s).focusTime = s.focusTime ∧ (step o s).breakTime = s.breakTime := by
  obtain ⟨m, sec, act, brk, n, f, b, sh, iv, al⟩ := s
  cases o with
  | edit e => simp [Op.isEdit] at ho
  | tick =>
    cases iv with
    | none => simp [step, tick]
    | some c =>
      simp only [step, tick, intervalCallback, handleTimerComplete, commit]
      cases act <;> cases hc : c.isBreak <;> by_cases h1 : sec = 0 <;> by_cases h2 : m = 0 <;>
        simp [h1, h2]
  | start => cases act <;> simp [step, startTimer, commit]
  | pause => cases act <;> simp [step, pauseTimer, commit]
  | reset => cases act <;> simp [step, resetTimer, commit]
  | skip => cases act <;> cases brk <;> simp [step, skipSession, commit]
  | toggleSettings => simp [step, toggleSettings]
  | applySettings => cases act <;> cases sh <;> simp [step, applySettings, commit]
  | cancel => cases sh <;> simp [step, cancelSettings]

/-- C21 at concrete states: the tick that completes the first focus session leaves the
durations at 25 and 5, while the focus minus button changes focusTime. -/
theorem config_frame_witness :
    (step .tick (ticks 1500 (startTimer initialState))).isBreak = true ∧
    (step .tick (ticks 1500 (startTimer initialState))).focusTime = 25 ∧
    (step .tick (ticks 1500 (startTimer initialState))).breakTime = 5 ∧
    (step (.edit .focusMinus) (toggleSettings initialState)).focusTime = 20 := by
  have h := config_frame .tick (ticks 1500 (startTimer initialState)) rfl
  rw [ticks_1500_start] at h ⊢
  exact ⟨by decide, h.1.trans (by decide), h.2.trans (by decide), by decide⟩

/-- C22 (the code on a failing input): Start with the default 25/5 durations and let the
timer run.  After 1801 ticks the break that followed the first focus session is at `0:00`
with one alert raised so far.  The next tick completes that break and raises exactly one
alert, but it is the focus-completed one, not the break-over one: the message follows the
`isBreak` captured when the interval was armed.  However long the timer is left running,
the break-over alert is never raised. -/
theorem break_end_raises_focus_alert :
    (ticks 1801 (startTimer initialState)).isBreak = true ∧
    (ticks 1801 (startTimer initialState)).remaining = 0 ∧
    (ticks 1801 (startTimer initialState)).alerts = [Alert.focusCompleted] ∧
    (tick (ticks 1801 (startTimer initialState))).alerts =
      (ticks 1801 (startTimer initialState)).alerts ++ [Alert.focusCompleted] ∧
    (∀ n : Nat, Alert.breakOver ∉ (ticks n (startTimer initialState)).alerts) := by
  refine ⟨?_, ?_, ?_, ?_, ticks_start_no_breakOver⟩
  all_goals
    rw [ticks_1801_start]
    try decide

/-- C23: after every sequence of operations on the mounted component, an interval is
armed exactly when isActive is true, at most one interval is live and it is the one in
`intervalRef`, and while isActive is false no tick is delivered: a tick leaves the whole
state, so minutes, seconds, isBreak and sessionsCompleted, unchanged. -/
theorem interval_armed_iff_active (s : State) (t : Timers) (h : ReachableWithTimers s t) :
    t.live.length ≤ 1 ∧
    (t.live ≠ [] ↔ s.isActive = true) ∧
    (∀ i ∈ t.live, t.ref = some i) ∧
    s.interval.isSome = s.isActive ∧
    (s.isActive = false → tick s = s) := by
  obtain ⟨hr, ht⟩ := reachableWithTimers_inv s t h
  have hw := (reachable_wellFormed s hr).2.2.2.2.1
  have hlive : t.live.length ≤ 1 ∧ (t.live ≠ [] ↔ s.isActive = true) ∧
      (∀ i ∈ t.live, t.ref = some i) := by
    unfold TimersFor at ht
    cases ha : s.isActive with
    | false =>
      rw [ha] at ht
      simp at ht
      simp [ht]
    | true =>
      rw [ha] at ht
      simp at ht
      obtain ⟨i, h1, h2⟩ := ht
      simp [h1, h2]
  refine ⟨hlive.1, hlive.2.1, hlive.2.2, hw, fun ha => ?_⟩
  rw [ha] at hw
  cases hi : s.interval with
  | none => simp [tick, hi]
  | some c => rw [hi] at hw; simp at hw

/-- C23 at concrete states: after Start one interval is live, and after Start and Pause
none is and a tick changes nothing. -/
theorem interval_armed_iff_active_witness :
    ReachableWithTimers (step .pause (step .start initialState))
      (commitTimers (step .start initialState).isActive
        (step .pause (step .start initialState)).isActive
        (commitTimers initialState.isActive (step .start initialState).isActive mountTimers)) ∧
    (step .pause (step .start initialState)).isActive = false ∧
    tick (step .pause (step .start initialState)) = step .pause (step .start initialState) ∧
    (commitTimers initialState.isActive (step .start initialState).isActive mountTimers).live
      = [1] :=
  have hr := ReachableWithTimers.step .pause
    (ReachableWithTimers.step .start ReachableWithTimers.init)
  ⟨hr, by decide, (interval_armed_iff_active _ _ hr).2.2.2.2 (by decide), by decide⟩

/-- C27: in every reachable state seconds is an integer in [0,59] and minutes is an
integer at least 0 (and at most 60), so `minutes * 60 + seconds` is never negative and the
displayed time `formatTime(minutes, seconds)` is two digits, a colon and two digits that
read minutes and seconds. -/
theorem clock_fields_well_formed (s : State) (h : Reachable s) :
    (0 ≤ s.seconds ∧ s.seconds ≤ 59) ∧ (0 ≤ s.minutes ∧ s.minutes ≤ 60) ∧
    0 ≤ s.remaining ∧
    formatTime s.minutes s.seconds =
      String.mk [Nat.digitChar (s.minutes.toNat / 10), Nat.digitChar (s.minutes.toNat % 10)] ++
        ":" ++
      String.mk [Nat.digitChar (s.seconds.toNat / 10), Nat.digitChar (s.seconds.toNat % 10)] := by
  obtain ⟨_, _, hsec, hmin, _, _, hb⟩ := reachable_wellFormed s h
  have hm60 : s.minutes ≤ 60 := by
    simp only [State.remaining] at hb
    split at hb <;> omega
  refine ⟨hsec, ⟨hmin, hm60⟩, by simp only [State.remaining]; omega, ?_⟩
  have e1 : s.minutes = ((s.minutes.toNat : Nat) : Int) := by omega
  have e2 : s.seconds = ((s.seconds.toNat : Nat) : Int) := by omega
  have l1 : s.minutes.toNat < 100 := by omega
  have l2 : s.seconds.toNat < 100 := by omega
  unfold formatTime
  rw [← padStart2_two_digits _ l1, ← padStart2_two_digits _ l2, ← e1, ← e2]

/-- C27 at a concrete state: one tick after Start the display reads 24:59. -/
theorem clock_fields_well_formed_witness :
    Reachable (step .tick (step .start initialState)) ∧
    (step .tick (step .start initialState)).minutes = 24 ∧
    (step .tick (step .start initialState)).seconds = 59 ∧
    0 ≤ (step .tick (step .start initialState)).remaining :=
  have hr := Reachable.step .tick (Reachable.step .start Reachable.init)
  ⟨hr, by decide, by decide, (clock_fields_well_formed _ hr).2.2.1⟩

/-- C28: every settings edit (focus and break plus and minus buttons, typed input,
presets) and the Cancel button change at most focusTime, breakTime and showSettings and
leave minutes, seconds, isActive, isBreak and sessionsCompleted (and the armed interval
and the alerts) unchanged.  Cancel keeps the edited focusTime and breakTime.  The edited
durations are loaded into the clock by applySettings, reset and skip, and by a completion
of a run started after the edit (Start arms the interval with them); start, pause and
opening the panel leave the clock alone, and a tick that is not a completion counts down
the same with or without the edit. -/
theorem settings_edits_frame (e : Edit) (s : State) :
    ((e.apply s).minutes = s.minutes ∧ (e.apply s).seconds = s.seconds ∧
      (e.apply s).isActive = s.isActive ∧ (e.apply s).isBreak = s.isBreak ∧
      (e.apply s).sessionsCompleted = s.sessionsCompleted ∧
      (e.apply s).interval = s.interval ∧ (e.apply s).alerts = s.alerts ∧
      (e.apply s).showSettings = s.showSettings) ∧
    ((step (.edit e) s).minutes = s.minutes ∧ (step (.edit e) s).seconds = s.seconds ∧
      (step (.edit e) s).isActive = s.isActive ∧ (step (.edit e) s).isBreak = s.isBreak ∧
      (step (.edit e) s).sessionsCompleted = s.sessionsCompleted) ∧
    (cancelSettings s = { s with showSettings := false } ∧
      (cancelSettings (e.apply s)).focusTime = (e.apply s).focusTime ∧
      (cancelSettings (e.apply s)).breakTime = (e.apply s).breakTime ∧
      (step .cancel s).minutes = s.minutes ∧ (step .cancel s).seconds = s.seconds ∧
      (step .cancel s).isActive = s.isActive ∧ (step .cancel s).isBreak = s.isBreak ∧
      (step .cancel s).sessionsCompleted = s.sessionsCompleted ∧
      (step .cancel s).focusTime = s.focusTime ∧ (step .cancel s).breakTime = s.breakTime) ∧
    ((applySettings (e.apply s)).minutes = (e.apply s).focusTime ∧
      (resetTimer (e.apply s)).minutes = (e.apply s).focusTime ∧
      (skipSession (e.apply s)).minutes =
        (if s.isBreak then (e.apply s).focusTime else (e.apply s).breakTime) ∧
      (s.isActive = false →
        (startTimer (e.apply s)).interval =
          some { isBreak := s.isBreak, focusTime := (e.apply s).focusTime,
                 breakTime := (e.apply s).breakTime })) ∧
    ((startTimer s).minutes = s.minutes ∧ (startTimer s).seconds = s.seconds ∧
      (pauseTimer s).minutes = s.minutes ∧ (pauseTimer s).seconds = s.seconds ∧
      (toggleSettings s).minutes = s.minutes ∧ (toggleSettings s).seconds = s.seconds) ∧
    (¬ (s.minutes = 0 ∧ s.seconds = 0) →
      (tick (e.apply s)).minutes = (tick s).minutes ∧
      (tick (e.apply s)).seconds = (tick s).seconds) := by
  obtain ⟨m, sec, act, brk, n, f, b, sh, iv, al⟩ := s
  refine ⟨?_, ?_, ?_, ?_, ?_, ?_⟩
  case refine_6 =>
    intro h0
    simp only [not_and] at h0
    cases iv with
    | none =>
      cases e <;> simp [tick, Edit.apply, focusMinus, focusInput, focusPlus, breakMinus,
        breakInput, breakPlus, presetClassic, presetLong, presetShort]
    | some c =>
      by_cases h1 : sec = 0
      · by_cases h2 : m = 0
        · exact absurd h1 (h0 h2)
        · cases act <;> cases e <;>
            simp [tick, intervalCallback, commit, Edit.apply, focusMinus, focusInput,
              focusPlus, breakMinus, breakInput, breakPlus, presetClassic, presetLong,
              presetShort, h1, h2]
      · cases act <;> cases e <;>
          simp [tick, intervalCallback, commit, Edit.apply, focusMinus, focusInput,
            focusPlus, breakMinus, breakInput, breakPlus, presetClassic, presetLong,
            presetShort, h1]
  · cases e <;> simp [Edit.apply, focusMinus, focusInput, focusPlus, breakMinus, breakInput,
      breakPlus, presetClassic, presetLong, presetShort]
  · cases sh <;> cases e <;>
      simp [step, Edit.apply, focusMinus, focusInput, focusPlus, breakMinus, breakInput,
        breakPlus, presetClassic, presetLong, presetShort]
  · cases sh <;> simp [step, cancelSettings]
  · cases act <;> cases brk <;> cases e <;>
      simp [Edit.apply, focusMinus, focusInput, focusPlus, breakMinus, breakInput,
        breakPlus, presetClassic, presetLong, presetShort, applySettings, resetTimer,
        skipSession, startTimer, commit]
  · cases act <;> simp [startTimer, pauseTimer, toggleSettings, commit]

/-- C29: for every state `s`, `skipSession (skipSession s)` has the same session kind,
sessionsCompleted, focusTime and breakTime as `s`, is idle, and has the full duration of
that kind on the clock (`focusTime * 60` for focus, `breakTime * 60` for a break); on an
idle state that is at full duration, skipping twice gives the state back. -/
theorem skipSession_twice (s : State) :
    (skipSession (skipSession s)).isBreak = s.isBreak ∧
    (skipSession (skipSession s)).sessionsCompleted = s.sessionsCompleted ∧
    (skipSession (skipSession s)).focusTime = s.focusTime ∧
    (skipSession (skipSession s)).breakTime = s.breakTime ∧
    (skipSession (skipSession s)).isActive = false ∧
    (skipSession (skipSession s)).minutes = s.duration ∧
    (skipSession (skipSession s)).seconds = 0 ∧
    (skipSession (skipSession s)).remaining = s.duration * 60 ∧
    (s.isActive = false → s.minutes = s.duration → s.seconds = 0 →
      skipSession (skipSession s) = s) := by
  obtain ⟨m, sec, act, brk, n, f, b, sh, iv, al⟩ := s
  cases act <;> cases brk <;>
    simp [skipSession, commit, State.duration, State.remaining] <;>
    intro h1 h2 <;> simp [h1, h2]

end FocusMode

namespace StudyPlanner

/-- Splitting always gives at least one piece. -/
theorem splitCommaChars_ne_nil (cs : List Char) : splitCommaChars cs ≠ [] := by
  cases cs with
  | nil => simp [splitCommaChars]
  | cons c cs =>
    simp only [splitCommaChars]
    split
    · simp
    · split <;> simp

/-- Joining the pieces with commas gives the string back. -/
theorem intercalate_splitCommaChars (cs : List Char) :
    [','].intercalate (splitCommaChars cs) = cs := by
  induction cs with
  | nil => simp [splitCommaChars, List.intercalate]
  | cons c cs ih =>
    simp only [splitCommaChars]
    split
    · next h =>
      subst h
      cases hs : splitCommaChars cs with
      | nil => exact absurd hs (splitCommaChars_ne_nil cs)
      | cons p ps =>
        rw [hs] at ih
        simp only [List.intercalate, List.intersperse, List.flatten] at ih ⊢
        simp [ih]
    · cases hs : splitCommaChars cs with
      | nil => exact absurd hs (splitCommaChars_ne_nil cs)
      | cons p ps =>
        rw [hs] at ih
        cases ps with
        | nil =>
          simp only [List.intercalate, List.intersperse, List.flatten] at ih ⊢
          simp at ih ⊢
          exact ih
        | cons q qs =>
          simp only [List.intercalate, List.intersperse, List.flatten] at ih ⊢
          simp at ih ⊢
          exact ih

/-- No piece contains a comma. -/
theorem comma_not_mem_splitCommaChars (cs : List Char) :
    ∀ p ∈ splitCommaChars cs, ',' ∉ p := by
  induction cs with
  | nil => simp [splitCommaChars]
  | cons c cs ih =>
    simp only [splitCommaChars]
    split
    · intro p hp
      rcases List.mem_cons.mp hp with h | h
      · simp [h]
      · exact ih p h
    · next hc =>
      cases hs : splitCommaChars cs with
      | nil => exact absurd hs (splitCommaChars_ne_nil cs)
      | cons q qs =>
        rw [hs] at ih
        intro p hp
        rcases List.mem_cons.mp hp with h | h
        · subst h
          have hq := ih q (List.mem_cons_self _ _)
          simp only [List.mem_cons, not_or]
          exact ⟨fun e => hc e.symm, hq⟩
        · exact ih p (List.mem_cons_of_mem _ h)

/-- Trimming only removes characters. -/
theorem trimChars_sublist (cs : List Char) : (trimChars cs).Sublist cs :=
  (List.rdropWhile_prefix _ _).sublist.trans (List.dropWhile_sublist _)

/-- A trimmed string does not start with white space. -/
theorem trimChars_head (cs : List Char) (c : Char) (h : (trimChars cs).head? = some c) :
    FocusMode.isStrWhiteSpaceChar c = false := by
  obtain ⟨ys, hys⟩ := List.head?_eq_some_iff.mp h
  have hp : trimChars cs <+: cs.dropWhile FocusMode.isStrWhiteSpaceChar :=
    List.rdropWhile_prefix _ _
  obtain ⟨zs, hzs⟩ := hp
  rw [hys] at hzs
  have := List.head?_dropWhile_not FocusMode.isStrWhiteSpaceChar cs
  rw [← hzs] at this
  simpa using this

/-- Trimming removes a run of white space at the start and a run of white space at the
end, and nothing else. -/
theorem trimChars_decomposition (cs : List Char) :
    ∃ l r : List Char, cs = l ++ trimChars cs ++ r ∧
      (∀ c ∈ l, FocusMode.isStrWhiteSpaceChar c = true) ∧
      (∀ c ∈ r, FocusMode.isStrWhiteSpaceChar c = true) := by
  refine ⟨cs.takeWhile FocusMode.isStrWhiteSpaceChar,
    (cs.dropWhile FocusMode.isStrWhiteSpaceChar).rtakeWhile FocusMode.isStrWhiteSpaceChar,
    ?_, fun c hc => List.mem_takeWhile_imp hc, fun c hc => List.mem_rtakeWhile_imp hc⟩
  have h1 : ∀ d : List Char,
      d.rdropWhile FocusMode.isStrWhiteSpaceChar ++ d.rtakeWhile FocusMode.isStrWhiteSpaceChar
        = d := by
    intro d
    simp only [List.rdropWhile, List.rtakeWhile, ← List.reverse_append,
      List.takeWhile_append_dropWhile, List.reverse_reverse]
  rw [List.append_assoc, trimChars, h1, List.takeWhile_append_dropWhile]

/-- A trimmed string does not end with white space. -/
theorem trimChars_getLast (cs : List Char) (c : Char) (h : (trimChars cs).getLast? = some c) :
    FocusMode.isStrWhiteSpaceChar c = false := by
  have hne : trimChars cs ≠ [] := by
    intro e
    rw [e] at h
    simp at h
  have hl := List.rdropWhile_last_not FocusMode.isStrWhiteSpaceChar
    (cs.dropWhile FocusMode.isStrWhiteSpaceChar) hne
  rw [List.getLast?_eq_getLast _ hne] at h
  have e : (trimChars cs).getLast hne = c := Option.some.inj h
  rw [← e]
  simpa using hl

/-- C24 (the code on failing inputs): with `,` in the subjects field, or with only commas
and spaces, `generatePlan` raises no error and posts the request with an empty subject
list; only the empty and the white-space-only field are rejected. -/
theorem generatePlan_posts_empty_subjects :
    generatePlan "," = { error := "", posted := some [] } ∧
    generatePlan " , ,, " = { error := "", posted := some [] } ∧
    generatePlan "" = { error := "Please enter at least one subject.", posted := none } ∧
    generatePlan "  \n " = { error := "Please enter at least one subject.", posted := none } ∧
    generatePlan "AI, DBMS, OS" = { error := "", posted := some ["AI", "DBMS", "OS"] } := by
  decide

/-- C25: for every input string, the pieces are what lies between the commas of the input
(joined with commas they give the input back, and none contains a comma), trimming a piece
removes white space at its two ends and nothing else, and the subject list is exactly the
list of the trimmed pieces with the empty ones removed, in input order and with
repetitions kept (`AI, DBMS, OS` gives `AI`, `DBMS`, `OS`; `AI, DBMS, AI` gives `AI`,
`DBMS`, `AI`); no element of the list is empty, contains a comma, or starts or ends with
white space. -/
theorem subjectArray_spec (subjects : String) :
    [','].intercalate ((splitComma subjects).map String.toList) = subjects.toList ∧
    (∀ p ∈ splitComma subjects, ',' ∉ p.toList) ∧
    (subjectArray subjects).Sublist ((splitComma subjects).map trim) ∧
    (∀ x, x ∈ subjectArray subjects ↔ x ≠ "" ∧ ∃ p ∈ splitComma subjects, x = trim p) ∧
    (∀ x ∈ subjectArray subjects,
      x ≠ "" ∧ ',' ∉ x.toList ∧
      (∀ c, x.toList.head? = some c → FocusMode.isStrWhiteSpaceChar c = false) ∧
      (∀ c, x.toList.getLast? = some c → FocusMode.isStrWhiteSpaceChar c = false)) ∧
    subjectArray "AI, DBMS, OS" = ["AI", "DBMS", "OS"] ∧
    subjectArray subjects =
      ((splitComma subjects).map trim).filter (fun x => decide (x ≠ "")) ∧
    (subjectArray subjects).map String.toList =
      ((splitCommaChars subjects.toList).map trimChars).filter (fun cs => decide (cs ≠ [])) ∧
    (∀ p : String, ∃ l r : List Char, p.toList = l ++ (trim p).toList ++ r ∧
      (∀ c ∈ l, FocusMode.isStrWhiteSpaceChar c = true) ∧
      (∀ c ∈ r, FocusMode.isStrWhiteSpaceChar c = true)) ∧
    subjectArray "AI, DBMS, AI" = ["AI", "DBMS", "AI"] ∧
    subjectArray " a ,, b,a ,b" = ["a", "b", "a", "b"] := by
  have hmap : (splitComma subjects).map String.toList = splitCommaChars subjects.toList := by
    simp only [splitComma, List.map_map]
    have : (String.toList ∘ String.mk) = id := rfl
    rw [this, List.map_id]
  have hmem : ∀ x, x ∈ subjectArray subjects ↔ x ≠ "" ∧ ∃ p ∈ splitComma subjects, x = trim p := by
    intro x
    simp only [subjectArray, List.mem_filter, List.mem_map, decide_eq_true_eq]
    constructor
    · rintro ⟨⟨p, hp, rfl⟩, hx⟩
      exact ⟨hx, p, hp, rfl⟩
    · rintro ⟨hx, p, hp, rfl⟩
      exact ⟨⟨p, hp, rfl⟩, hx⟩
  have hcomma : ∀ p ∈ splitComma subjects, ',' ∉ p.toList := by
    intro p hp
    have : p.toList ∈ (splitComma subjects).map String.toList := List.mem_map_of_mem _ hp
    rw [hmap] at this
    exact comma_not_mem_splitCommaChars _ _ this
  refine ⟨?_, hcomma, ?_, hmem, ?_, by decide, rfl, ?_,
    fun p => trimChars_decomposition p.toList, by decide, by decide⟩
  · rw [hmap]
    exact intercalate_splitCommaChars _
  · exact List.filter_sublist _
  · intro x hx
    obtain ⟨hne, p, hp, rfl⟩ := (hmem x).mp hx
    refine ⟨hne, ?_, ?_, ?_⟩
    · intro hc
      exact hcomma p hp ((trimChars_sublist p.toList).subset hc)
    · intro c hc
      exact trimChars_head p.toList c hc
    · intro c hc
      exact trimChars_getLast p.toList c hc
  · simp only [subjectArray, splitComma, trim, List.map_map, List.filter_map]
    have e1 : (String.toList ∘ trim ∘ String.mk) = trimChars := rfl
    have e2 : ((fun x => decide (x ≠ "")) ∘ trim ∘ String.mk) =
        ((fun cs => decide (cs ≠ [])) ∘ trimChars) := by
      funext cs
      simp [trim, String.ext_iff]
    rw [e1, e2]

end StudyPlanner

namespace Dashboard

/-- C26 (the code on failing inputs): the Dashboard lists 8 tiles with pairwise distinct
ids and paths, but the paths of two of them, `ambient` (`/study-rooms`) and `location`
(`/location-tracker`), are not in the route table of `App`: a click on either navigates
to a location for which `App` renders no route.  The other six paths are routes. -/
theorem tiles_without_route :
    allFeatures.length = 8 ∧
    (allFeatures.map Feature.id).Nodup ∧ (allFeatures.map Feature.path).Nodup ∧
    (allFeatures.filter (fun f => decide (f.path ∉ App.routePaths))).map Feature.id =
      ["ambient", "location"] ∧
    (allFeatures.filter (fun f => decide (f.path ∈ App.routePaths))).map Feature.id =
      ["planner", "chat", "focus", "progress", "buddy", "voice"] ∧
    App.render false (some ()) "/study-rooms" = App.View.noMatch ∧
    App.render false (some ()) "/location-tracker" = App.View.noMatch := by
  decide

end Dashboard

namespace App

/-- C30: while the auth check is pending (`loading` true) `App` renders no route at all;
once it has finished, each of the seven feature routes renders its page if and only if a
user is signed in and is otherwise the redirect to `/login`, and `/login` and `/signup`
render their page if and only if no user is signed in and are otherwise the redirect to
`/dashboard`. -/
theorem auth_gating {User : Type} (user : Option User) :
    (∀ pathname : String, render true user pathname = View.checking) ∧
    (∀ pp ∈ [("/dashboard", Page.Dashboard), ("/study-planner", Page.StudyPlanner),
              ("/chat", Page.ChatAssistant), ("/focus-mode", Page.FocusMode),
              ("/progress-tracker", Page.ProgressTracker), ("/study-buddy", Page.StudyBuddy),
              ("/voice-notes", Page.VoiceNotes)],
      (render false user pp.1 = View.element (Element.page pp.2) ↔ user.isSome = true) ∧
      (user.isSome = false →
        render false user pp.1 = View.element (Element.navigate "/login"))) ∧
    (∀ pp ∈ [("/login", Page.Login), ("/signup", Page.Signup)],
      (render false user pp.1 = View.element (Element.page pp.2) ↔ user.isSome = false) ∧
      (user.isSome = true →
        render false user pp.1 = View.element (Element.navigate "/dashboard"))) := by
  refine ⟨fun _ => rfl, ?_, ?_⟩
  · intro pp hpp
    simp only [List.mem_cons, List.mem_singleton, List.not_mem_nil, or_false] at hpp
    cases user <;> rcases hpp with h | h | h | h | h | h | h <;> subst h <;>
      simp [render, routes, List.lookup]
  · intro pp hpp
    simp only [List.mem_cons, List.mem_singleton, List.not_mem_nil, or_false] at hpp
    cases user <;> rcases hpp with h | h <;> subst h <;>
      simp [render, routes, List.lookup]

end App
